import Mathlib

/-! Hardware timer manager of `board_esp32_timer.c`.

A shallow embedding of the ESP32 hardware-timer manager: the slot allocator
(`getNextTimer`, `claimTimer`, `unclaimTimer`, `hardTimerClaimed`,
`hardTimerStarted`), the frequency resolver (`getHardTimerStats`) and the
lifecycle operations (`setHardTimer`, `cancelHardTimer`).

The two file-scope globals `claimed` and `timers[]` become the fields of
`TimerState`; calls into the vendor SDK are recorded, in order, in the `hw`
field. Behaviour that C leaves undefined (an out-of-range table lookup, a
division by zero, a null dereference) is returned as a `Fault`.
-/

namespace BoardEsp32Timer

/-! ## Constants -/

/-- Reference clock of the timer peripheral: `APB_CLK = 80,000,000Hz`. -/
abbrev APB_CLK_FREQ : Nat := 80000000

/-- The constant `FREQ_MAX` of `board_esp32.h`. -/
abbrev FREQ_MAX : Nat := 5000000

/-- The constant `NUM_TIMERS` of `board_esp32.h`. -/
abbrev NUM_TIMERS : Nat := 4

/-- The constant `UINT16_MAX`. -/
abbrev UINT16_MAX : Nat := 65535

/-- The constant `UINT8_MAX`. -/
abbrev UINT8_MAX : Nat := 255

/-- The constant `SCALAR_MAX`: max value for the timer scalar. -/
abbrev SCALAR_MAX : Nat := UINT16_MAX

/-- The constant `TIMER_COUNT_ZERO`. -/
abbrev TIMER_COUNT_ZERO : Nat := 0

/-- The constant `TEST_FAST_FREQ` of `board.h`. -/
abbrev TEST_FAST_FREQ : Nat := 290000

/-! ## Data model -/

/-- The record `hard_timer_group_t`: timer group and timer number. -/
structure hard_timer_group_t where
  group : Nat
  num : Nat
  deriving DecidableEq, Repr

/-- The table `timerGroups[4]`: group and number of each timer. -/
def timerGroups : List hard_timer_group_t :=
  [ { group := 0, num := 0 },
    { group := 1, num := 0 },
    { group := 0, num := 1 },
    { group := 1, num := 1 } ]

/-- Modelled from the spec: the type `hard_timer_t` and the sentinel
`HARD_TIMER_INVALID` are declared in `hard_timer.h`, which is not part of the
sources. A slot identifier is "a small integer index" (`slot i`) or "the
sentinel unspecified value" (`HARD_TIMER_INVALID`), the sentinel being
different from every index the code handles. -/
inductive hard_timer_t where
  | slot (i : Nat)
  | HARD_TIMER_INVALID
  deriving DecidableEq, Repr

/-- Modelled from the spec: the enumeration `HardTimerStatusReturn` is declared
in `hard_timer.h`, which is not part of the sources; its three outcomes are
exact, approximate and fail. -/
inductive HardTimerStatusReturn where
  | HARD_TIMER_OK
  | HARD_TIMER_SLIGHTLY_OFF
  | HARD_TIMER_FAIL
  deriving DecidableEq, Repr

/-- Behaviour that the C source leaves undefined. -/
inductive Fault where
  | outOfBounds
  | divByZero
  | nullDeref
  | shiftRange
  | loopFuel
  deriving DecidableEq, Repr

deriving instance DecidableEq for Except

/-- The initialiser `timer_config_t config` of `setHardTimer`. -/
structure timer_config_t where
  divider : Nat
  counter_dir : Bool
  counter_en : Bool
  alarm_en : Bool
  auto_reload : Bool
  deriving DecidableEq, Repr

/-- One call into the vendor timer driver. -/
inductive HwCall where
  | timer_set_alarm (group num : Nat) (en : Bool)
  | timer_pause (group num : Nat)
  | timer_set_counter_value (group num : Nat) (value : Nat)
  | timer_isr_callback_remove (group num : Nat)
  | timer_deinit (group num : Nat)
  | timer_init (group num : Nat) (config : timer_config_t)
  | timer_start (group num : Nat)
  | timer_isr_callback_add (group num : Nat) (function : Nat) (flags : Nat)
  | timer_set_alarm_value (group num : Nat) (ticks : Nat)
  | timer_set_auto_reload (group num : Nat) (en : Bool)
  deriving DecidableEq, Repr

/-- The manager state: the byte `claimed`, the pointer array `timers[]`
(`none` is `NULL`, `some g` points to the record `g`), and the driver calls
made so far, oldest first. -/
structure TimerState where
  claimed : Nat
  timers : Fin NUM_TIMERS → Option hard_timer_group_t
  hw : List HwCall
  deriving DecidableEq

/-- The state at start-up: `claimed = 0U`, every `timers[i]` is `NULL`. -/
def TimerState.init : TimerState :=
  { claimed := 0, timers := fun _ => none, hw := [] }

/-! ## Slot allocator -/

/-- The function `setPriority`: `1 << (priority / (UINT8_MAX / 3))`. -/
def setPriority (priority : Nat) : Nat :=
  1 <<< (priority / (UINT8_MAX / 3))

/-- The function `getTimer`: `NULL` for the sentinel, else the address of
`timers[timer]`, modelled by its index. -/
def getTimer (timer : hard_timer_t) : Option Nat :=
  match timer with
  | .HARD_TIMER_INVALID => none
  | .slot i => some i

/-- Reading through a pointer into `timers[]`. -/
def readTimerPtr (st : TimerState) (p : Nat) : Except Fault (Option hard_timer_group_t) :=
  if h : p < NUM_TIMERS then .ok (st.timers ⟨p, h⟩) else .error .outOfBounds

/-- Writing through a pointer into `timers[]`. -/
def writeTimerPtr (st : TimerState) (p : Nat) (v : Option hard_timer_group_t) :
    Except Fault TimerState :=
  if h : p < NUM_TIMERS then
    .ok { st with timers := Function.update st.timers ⟨p, h⟩ v }
  else .error .outOfBounds

/-- The function `hardTimerStarted`. -/
def hardTimerStarted (st : TimerState) (timer : hard_timer_t) : Except Fault Bool :=
  match getTimer timer with
  | none => .ok false
  | some p => do
    let cell ← readTimerPtr st p
    if cell ≠ none then pure true else pure false

/-- The function `hardTimerClaimed`. -/
def hardTimerClaimed (st : TimerState) (timer : hard_timer_t) : Except Fault Bool :=
  match timer with
  | .HARD_TIMER_INVALID => .ok false
  | .slot i =>
    match timerGroups[i]? with
    | none => .error .outOfBounds
    | some g => .ok ((st.claimed &&& (1 <<< (g.group + g.num * 2))) != 0)

/-- The loop of `getNextTimer`, with `n` iterations left and counter `i`. -/
def getNextTimerLoop (st : TimerState) : Nat → Nat → Except Fault hard_timer_t
  | 0, _ => .ok .HARD_TIMER_INVALID
  | n + 1, i => do
    let started ← hardTimerStarted st (.slot i)
    let free ← if started then pure false
               else (do let c ← hardTimerClaimed st (.slot i); pure (!c))
    if free then pure (.slot i) else getNextTimerLoop st n (i + 1)

/-- The function `getNextTimer`: next unstarted and unclaimed timer. -/
def getNextTimer (st : TimerState) : Except Fault hard_timer_t :=
  getNextTimerLoop st NUM_TIMERS 0

/-- The function `setTimerClaimed`; `claimed` is a `uint8_t`, the shift is done
on a 32-bit `int`. -/
def setTimerClaimed (st : TimerState) (timer : hard_timer_t) (state : Bool) :
    Except Fault TimerState :=
  match timer with
  | .HARD_TIMER_INVALID => .ok st
  | .slot i =>
    if i < 31 then
      if state then
        .ok { st with claimed := (st.claimed ||| (1 <<< i)) % 256 }
      else
        .ok { st with claimed := (st.claimed &&& (2 ^ 32 - 1 - (1 <<< i))) % 256 }
    else .error .shiftRange

/-- The function `claimTimer`; its `priority` argument is not used by the
source. -/
def claimTimer (st : TimerState) : Except Fault (hard_timer_t × TimerState) := do
  let timer ← getNextTimer st
  if timer ≠ .HARD_TIMER_INVALID then do
    let st1 ← setTimerClaimed st timer true
    pure (timer, st1)
  else pure (timer, st)

/-- The function `unclaimTimer`. -/
def unclaimTimer (st : TimerState) (timer : hard_timer_t) : Except Fault (Bool × TimerState) := do
  let isClaimed ← hardTimerClaimed st timer
  if isClaimed then do
    let st1 ← setTimerClaimed st timer false
    pure (true, st1)
  else pure (false, st)

/-! ## Frequency resolver -/

/-- The `while` loop of `getHardTimerStats`: halve `*timerTicks` and double
`*scalar` (a `uint16_t`) while the ticks are even and `*scalar * 2` does not
exceed `SCALAR_MAX`. The first argument bounds the number of iterations. -/
def scaleLoop : Nat → Nat → Nat → Except Fault (Nat × Nat)
  | fuel, scalar, timerTicks =>
    if timerTicks % 2 = 0 ∧ scalar * 2 ≤ SCALAR_MAX then
      match fuel with
      | 0 => .error .loopFuel
      | n + 1 => scaleLoop n (scalar * 2 % 2 ^ 16) (timerTicks / 2)
    else .ok (scalar, timerTicks)

/-- The branch of `getHardTimerStats` that fills `*scalar` and `*timerTicks`
from `target`; the loop runs at most 15 times, the scalar being a power of two
below `SCALAR_MAX`. -/
def scalarTicks (target : Nat) : Except Fault (Nat × Nat) :=
  if target ≤ SCALAR_MAX then pure (target % 2 ^ 16, 1)
  else scaleLoop 16 1 target

/-- The step of `getHardTimerStats` that settles `*timer`: a slot that is
started and not claimed, or the sentinel, is replaced by `getNextTimer()`. -/
def resolveTimer (st : TimerState) (timer : hard_timer_t) : Except Fault hard_timer_t := do
  let isClaimed ← hardTimerClaimed st timer
  let unowned ← if isClaimed then pure false else hardTimerStarted st timer
  if unowned ∨ timer = .HARD_TIMER_INVALID then getNextTimer st else pure timer

/-- What `getHardTimerStats` leaves in its four pointer arguments, with the
status it returns. -/
structure HardTimerStats where
  status : HardTimerStatusReturn
  freq : Nat
  timer : hard_timer_t
  scalar : Nat
  timerTicks : Nat
  deriving DecidableEq, Repr

/-- The function `getHardTimerStats`, called with `*freq = freq` and
`*timer = timer`. The two `throw`s are the divisions by zero of
`APB_CLK_FREQ % *freq` and of `APB_CLK_FREQ / (*scalar * *timerTicks)`. -/
def getHardTimerStats (st : TimerState) (freq : Nat) (timer : hard_timer_t) :
    Except Fault HardTimerStats :=
  if freq = 0 then .error .divByZero
  else do
    let status : HardTimerStatusReturn :=
      if APB_CLK_FREQ % freq ≠ 0 then .HARD_TIMER_SLIGHTLY_OFF else .HARD_TIMER_OK
    let target := APB_CLK_FREQ / freq
    let pair ← scalarTicks target
    let scalar := pair.1
    let timerTicks := pair.2
    if scalar * timerTicks = 0 then .error .divByZero
    else do
      let freq1 := APB_CLK_FREQ / (scalar * timerTicks)
      let timer1 ← resolveTimer st timer
      if timer1 = .HARD_TIMER_INVALID then
        pure { status := .HARD_TIMER_FAIL, freq := freq1, timer := timer1,
               scalar := scalar, timerTicks := timerTicks }
      else
        pure { status := status, freq := freq1, timer := timer1,
               scalar := scalar, timerTicks := timerTicks }

/-! ## Lifecycle -/

/-- Appends driver calls to the record of the state. -/
def TimerState.emit (st : TimerState) (calls : List HwCall) : TimerState :=
  { st with hw := st.hw ++ calls }

/-- The function `cancelHardTimer`. -/
def cancelHardTimer (st : TimerState) (timer : hard_timer_t) :
    Except Fault (Bool × TimerState) := do
  let started ← hardTimerStarted st timer
  if started then
    match getTimer timer with
    | none => .error .nullDeref
    | some p => do
      let cell ← readTimerPtr st p
      match cell with
      | none => .error .nullDeref
      | some g => do
        let st1 := st.emit
          [ .timer_set_alarm g.group g.num false,
            .timer_pause g.group g.num,
            .timer_set_counter_value g.group g.num TIMER_COUNT_ZERO,
            .timer_isr_callback_remove g.group g.num,
            .timer_deinit g.group g.num ]
        let st2 ← writeTimerPtr st1 p none
        pure (true, st2)
  else pure (false, st)

/-- What `setHardTimer` returns and leaves in the caller's `*timer` and `*freq`
(`none` for a null pointer), with the resulting state. -/
structure SetResult where
  ret : Bool
  timer : Option hard_timer_t
  freq : Option Nat
  st : TimerState
  deriving DecidableEq

/-- The function `setHardTimer`; a null pointer argument is `none`, the
callback is identified by a number. -/
def setHardTimer (st : TimerState) (timer : Option hard_timer_t) (freq : Option Nat)
    (function : Option Nat) (priority : Nat) : Except Fault SetResult :=
  match function, freq, timer with
  | some fn, some f, some t =>
    if f = 0 ∨ f > FREQ_MAX then
      .ok { ret := false, timer := timer, freq := freq, st := st }
    else do
      let r ← getHardTimerStats st f t
      if r.status = .HARD_TIMER_FAIL then
        pure { ret := false, timer := some r.timer, freq := some r.freq, st := st }
      else do
        let started ← hardTimerStarted st r.timer
        if started then
          pure { ret := false, timer := some r.timer, freq := some r.freq, st := st }
        else
          match getTimer r.timer with
          | none => .error .nullDeref
          | some p =>
            match timerGroups[p]? with
            | none => .error .outOfBounds
            | some g => do
              let st1 ← writeTimerPtr st p (some g)
              let config : timer_config_t :=
                { divider := r.scalar, counter_dir := true, counter_en := false,
                  alarm_en := false, auto_reload := false }
              let st2 := st1.emit
                [ .timer_init g.group g.num config,
                  .timer_set_counter_value g.group g.num TIMER_COUNT_ZERO,
                  .timer_start g.group g.num,
                  .timer_isr_callback_add g.group g.num fn (setPriority priority),
                  .timer_set_alarm_value g.group g.num r.timerTicks,
                  .timer_set_auto_reload g.group g.num true,
                  .timer_set_alarm g.group g.num true,
                  .timer_start g.group g.num ]
              pure { ret := true, timer := some r.timer, freq := some r.freq, st := st2 }
  | _, _, _ => .ok { ret := false, timer := timer, freq := freq, st := st }

/-! ## Call sequences -/

/-- A call of one of the four state-changing operations of the public
interface. -/
inductive Call where
  | claimTimer
  | unclaimTimer (timer : hard_timer_t)
  | setHardTimer (timer : Option hard_timer_t) (freq : Option Nat) (function : Option Nat)
      (priority : Nat)
  | cancelHardTimer (timer : hard_timer_t)
  deriving DecidableEq, Repr

/-- The value a call returns. -/
inductive Ret where
  | timer (t : hard_timer_t)
  | flag (b : Bool)
  deriving DecidableEq, Repr

/-- Performs one call. -/
def step (st : TimerState) : Call → Except Fault (Ret × TimerState)
  | .claimTimer => do
    let r ← claimTimer st
    pure (.timer r.1, r.2)
  | .unclaimTimer t => do
    let r ← unclaimTimer st t
    pure (.flag r.1, r.2)
  | .setHardTimer t f fn p => do
    let r ← setHardTimer st t f fn p
    pure (.flag r.ret, r.st)
  | .cancelHardTimer t => do
    let r ← cancelHardTimer st t
    pure (.flag r.1, r.2)

/-- Performs a sequence of calls, collecting the returned values. -/
def run (st : TimerState) : List Call → Except Fault (List Ret × TimerState)
  | [] => .ok ([], st)
  | c :: cs => do
    let r ← step st c
    let rs ← run r.2 cs
    pure (r.1 :: rs.1, rs.2)

/-! ## Slot conditions used by the statements -/

/-- Slot `i` is neither started nor claimed, as the two queries report it. -/
def isFree (st : TimerState) (i : Nat) : Prop :=
  hardTimerStarted st (.slot i) = .ok false ∧ hardTimerClaimed st (.slot i) = .ok false

instance (st : TimerState) (i : Nat) : Decidable (isFree st i) := by
  unfold isFree; infer_instance

/-- Slot `i` is Running: claimed and started, as the two queries report it. -/
def isRunning (st : TimerState) (i : Nat) : Prop :=
  hardTimerClaimed st (.slot i) = .ok true ∧ hardTimerStarted st (.slot i) = .ok true

instance (st : TimerState) (i : Nat) : Decidable (isRunning st i) := by
  unfold isRunning; infer_instance

/-- A state in which slot 0 is Running: the state reached from start-up by
`claimTimer` and then `setHardTimer` on slot 0 at 1000 Hz. -/
def runningSlot0 : TimerState :=
  { claimed := 1,
    timers := Function.update (fun _ => none) 0 (some { group := 0, num := 0 }),
    hw := [] }

/-- A slot identifier the code can look up: an index below `NUM_TIMERS`, or
the sentinel. -/
def inRange : hard_timer_t → Prop
  | .HARD_TIMER_INVALID => True
  | .slot i => i < NUM_TIMERS

instance (t : hard_timer_t) : Decidable (inRange t) := by
  cases t <;> (unfold inRange; infer_instance)

/-- The calling discipline under which a started slot is always a claimed one:
`setHardTimer` is called on a slot that is claimed at that moment, and
`unclaimTimer` on a slot that is not started at that moment. -/
def disciplined (st : TimerState) : Call → Prop
  | .claimTimer => True
  | .cancelHardTimer _ => True
  | .unclaimTimer t => hardTimerStarted st t = .ok false
  | .setHardTimer timer _ _ _ =>
    match timer with
    | none => True
    | some t => hardTimerClaimed st t = .ok true

instance (st : TimerState) (c : Call) : Decidable (disciplined st c) := by
  cases c with
  | claimTimer => unfold disciplined; infer_instance
  | cancelHardTimer t => unfold disciplined; infer_instance
  | unclaimTimer t => unfold disciplined; infer_instance
  | setHardTimer timer f fn p =>
    cases timer <;> (unfold disciplined; infer_instance)

/-- Every call of the sequence follows the discipline in the state in which it
is made. -/
def disciplinedRun : TimerState → List Call → Prop
  | _, [] => True
  | st, c :: cs =>
    disciplined st c ∧
      match step st c with
      | .ok r => disciplinedRun r.2 cs
      | .error _ => True

instance disciplinedRun.decide : (st : TimerState) → (cs : List Call) →
    Decidable (disciplinedRun st cs)
  | _, [] => isTrue trivial
  | st, c :: cs =>
    match h : step st c with
    | .ok r =>
      match disciplinedRun.decide r.2 cs with
      | isTrue h2 =>
        if h1 : disciplined st c then isTrue (by unfold disciplinedRun; rw [h]; exact ⟨h1, h2⟩)
        else isFalse (fun hd => by unfold disciplinedRun at hd; exact h1 hd.1)
      | isFalse h2 => isFalse (fun hd => by
          unfold disciplinedRun at hd; rw [h] at hd; exact h2 hd.2)
    | .error _ =>
      if h1 : disciplined st c then isTrue (by unfold disciplinedRun; rw [h]; exact ⟨h1, trivial⟩)
      else isFalse (fun hd => by unfold disciplinedRun at hd; exact h1 hd.1)

/-- The loop of `getHardTimerStats` on unbounded integers: the same halving and
doubling, the scalar not being reduced to 16 bits. It is compared with
`scaleLoop` to state that the 16-bit scalar never wraps. -/
def scaleLoopExact : Nat → Nat → Nat → Except Fault (Nat × Nat)
  | fuel, scalar, timerTicks =>
    if timerTicks % 2 = 0 ∧ scalar * 2 ≤ SCALAR_MAX then
      match fuel with
      | 0 => .error .loopFuel
      | n + 1 => scaleLoopExact n (scalar * 2) (timerTicks / 2)
    else .ok (scalar, timerTicks)

/-- The scalar and the ticks on unbounded integers: `scalarTicks` without the
conversion of the target to 16 bits and with `scaleLoopExact`. -/
def scalarTicksExact (target : Nat) : Except Fault (Nat × Nat) :=
  if target ≤ SCALAR_MAX then pure (target, 1)
  else scaleLoopExact 16 1 target

/-! # Theorems -/

/-! ## Bit-level facts about the byte `claimed` -/

theorem and_one_shiftLeft_ne_zero (c k : Nat) : ((c &&& (1 <<< k)) != 0) = c.testBit k := by
  rw [Nat.one_shiftLeft]
  cases h : c.testBit k
  · have hz : c &&& 2 ^ k = 0 := by
      apply Nat.eq_of_testBit_eq
      intro j
      rw [Nat.testBit_and, Nat.testBit_two_pow, Nat.zero_testBit]
      by_cases hj : k = j
      · subst hj; simp [h]
      · simp [hj]
    simp [hz]
  · have hnz : c &&& 2 ^ k ≠ 0 := by
      intro hz
      have := Nat.testBit_and c (2 ^ k) k
      rw [hz, Nat.zero_testBit, h, Nat.testBit_two_pow_self] at this
      simp at this
    simp [hnz]

theorem testBit_set (c i j : Nat) :
    ((c ||| (1 <<< i)) % 256).testBit j = (decide (j < 8) && (c.testBit j || decide (i = j))) := by
  have : (256 : Nat) = 2 ^ 8 := by norm_num
  rw [this, Nat.testBit_mod_two_pow, Nat.testBit_or, Nat.one_shiftLeft, Nat.testBit_two_pow]

theorem testBit_clear (c i j : Nat) (hi : i < 31) :
    ((c &&& (2 ^ 32 - 1 - (1 <<< i))) % 256).testBit j
      = (decide (j < 8) && (c.testBit j && !decide (i = j))) := by
  have h256 : (256 : Nat) = 2 ^ 8 := by norm_num
  have hlt : 2 ^ i < 2 ^ 32 := Nat.pow_lt_pow_right (by norm_num) (by omega)
  have hsub : 2 ^ 32 - 1 - 2 ^ i = 2 ^ 32 - (2 ^ i + 1) := by omega
  rw [h256, Nat.testBit_mod_two_pow, Nat.testBit_and, Nat.one_shiftLeft, hsub,
    Nat.testBit_two_pow_sub_succ hlt, Nat.testBit_two_pow]
  by_cases h8 : j < 8
  · have : j < 32 := by omega
    simp [h8, this]
  · simp [h8]

/-! ## The two queries on a valid index -/

theorem ok_bind {α β : Type} (a : α) (f : α → Except Fault β) :
    (Except.ok a >>= f) = f a := rfl

theorem error_bind {α β : Type} (e : Fault) (f : α → Except Fault β) :
    ((Except.error e : Except Fault α) >>= f) = Except.error e := rfl

theorem pure_ok {α : Type} (a : α) : (pure a : Except Fault α) = Except.ok a := rfl

theorem hardTimerClaimed_slot (st : TimerState) (i : Nat) (h : i < NUM_TIMERS) :
    hardTimerClaimed st (.slot i) = .ok (st.claimed.testBit i) := by
  have h4 : i < 4 := h
  interval_cases i
  · exact congrArg Except.ok (and_one_shiftLeft_ne_zero st.claimed 0)
  · exact congrArg Except.ok (and_one_shiftLeft_ne_zero st.claimed 1)
  · exact congrArg Except.ok (and_one_shiftLeft_ne_zero st.claimed 2)
  · exact congrArg Except.ok (and_one_shiftLeft_ne_zero st.claimed 3)

theorem hardTimerClaimed_out_of_range (st : TimerState) (i : Nat) (h : NUM_TIMERS ≤ i) :
    hardTimerClaimed st (.slot i) = .error .outOfBounds := by
  have h4 : 4 ≤ i := h
  obtain ⟨k, rfl⟩ : ∃ k, i = k + 4 := ⟨i - 4, by omega⟩
  simp [hardTimerClaimed, timerGroups]

theorem hardTimerStarted_slot (st : TimerState) (i : Nat) (h : i < NUM_TIMERS) :
    hardTimerStarted st (.slot i) = .ok (st.timers ⟨i, h⟩).isSome := by
  simp only [hardTimerStarted, getTimer, readTimerPtr, h, dite_true, ok_bind]
  cases st.timers ⟨i, h⟩ <;> rfl

theorem hardTimerStarted_out_of_range (st : TimerState) (i : Nat) (h : NUM_TIMERS ≤ i) :
    hardTimerStarted st (.slot i) = .error .outOfBounds := by
  have h4 : ¬ i < NUM_TIMERS := by omega
  simp only [hardTimerStarted, getTimer, readTimerPtr, h4, dite_false, error_bind]

/-- On a valid index, "free" reads: handle null and bit clear. -/
theorem isFree_iff (st : TimerState) (i : Nat) (h : i < NUM_TIMERS) :
    isFree st i ↔ (st.timers ⟨i, h⟩).isSome = false ∧ st.claimed.testBit i = false := by
  unfold isFree
  rw [hardTimerStarted_slot st i h, hardTimerClaimed_slot st i h]
  simp

/-- One iteration of the scan of `getNextTimer` on a valid index. -/
theorem getNextTimerLoop_succ (st : TimerState) (n i : Nat) (h : i < NUM_TIMERS) :
    getNextTimerLoop st (n + 1) i =
      if isFree st i then .ok (.slot i) else getNextTimerLoop st n (i + 1) := by
  rw [getNextTimerLoop]
  by_cases hf : isFree st i
  · have hf2 := hf
    unfold isFree at hf2
    rw [if_pos hf, hf2.1, hf2.2]
    rfl
  · rw [if_neg hf]
    rw [isFree_iff st i h] at hf
    rw [hardTimerStarted_slot st i h, hardTimerClaimed_slot st i h]
    cases hs : (st.timers ⟨i, h⟩).isSome
    · cases hc : st.claimed.testBit i
      · exact absurd ⟨hs, hc⟩ hf
      · rfl
    · rfl

/-- The scan returns the lowest free index of its range, or the sentinel when
the range has none. -/
theorem getNextTimerLoop_spec (st : TimerState) (n : Nat) :
    ∀ i, i + n ≤ NUM_TIMERS →
      (∃ k, getNextTimerLoop st n i = .ok (.slot k) ∧ i ≤ k ∧ k < i + n ∧ isFree st k ∧
          ∀ j, i ≤ j → j < k → ¬ isFree st j) ∨
      (getNextTimerLoop st n i = .ok .HARD_TIMER_INVALID ∧
          ∀ j, i ≤ j → j < i + n → ¬ isFree st j) := by
  induction n with
  | zero =>
    intro i _
    right
    exact ⟨rfl, fun j h1 h2 => by omega⟩
  | succ n ih =>
    intro i hi
    have hlt : i < NUM_TIMERS := by omega
    rw [getNextTimerLoop_succ st n i hlt]
    by_cases hf : isFree st i
    · left
      exact ⟨i, by rw [if_pos hf], le_refl i, by omega, hf, fun j h1 h2 => by omega⟩
    · rw [if_neg hf]
      rcases ih (i + 1) (by omega) with ⟨k, hk, h1, h2, h3, h4⟩ | ⟨hk, h1⟩
      · left
        refine ⟨k, hk, by omega, by omega, h3, fun j hj1 hj2 => ?_⟩
        by_cases hji : j = i
        · subst hji; exact hf
        · exact h4 j (by omega) hj2
      · right
        refine ⟨hk, fun j hj1 hj2 => ?_⟩
        by_cases hji : j = i
        · subst hji; exact hf
        · exact h1 j (by omega) (by omega)

/-- The function `getNextTimer` returns the lowest free slot, or the sentinel
when no slot is free. -/
theorem getNextTimer_spec (st : TimerState) :
    (∃ k, getNextTimer st = .ok (.slot k) ∧ k < NUM_TIMERS ∧ isFree st k ∧
        ∀ j, j < k → ¬ isFree st j) ∨
    (getNextTimer st = .ok .HARD_TIMER_INVALID ∧ ∀ j, j < NUM_TIMERS → ¬ isFree st j) := by
  rcases getNextTimerLoop_spec st NUM_TIMERS 0 (by decide) with ⟨k, hk, _, h2, h3, h4⟩ | ⟨hk, h1⟩
  · left
    exact ⟨k, hk, by omega, h3, fun j hj => h4 j (Nat.zero_le j) hj⟩
  · right
    exact ⟨hk, fun j hj => h1 j (Nat.zero_le j) (by omega)⟩

/-- A free slot with no free slot below it is the one `getNextTimer` returns. -/
theorem getNextTimer_of_lowest (st : TimerState) (i : Nat) (hi : i < NUM_TIMERS)
    (hf : isFree st i) (hlow : ∀ j, j < i → ¬ isFree st j) :
    getNextTimer st = .ok (.slot i) := by
  rcases getNextTimer_spec st with ⟨k, hk, hk4, hkf, hkl⟩ | ⟨_, h1⟩
  · have : k = i := by
      rcases Nat.lt_trichotomy k i with h | h | h
      · exact absurd hkf (hlow k h)
      · exact h
      · exact absurd hf (hkl i h)
    rw [hk, this]
  · exact absurd hf (h1 i hi)

/-! ## Effect of `setTimerClaimed` -/

theorem setTimerClaimed_true (st : TimerState) (i : Nat) (h : i < NUM_TIMERS) :
    setTimerClaimed st (.slot i) true =
      .ok { st with claimed := (st.claimed ||| (1 <<< i)) % 256 } := by
  have h4 : i < 4 := h
  have h31 : i < 31 := by omega
  simp [setTimerClaimed, h31]

theorem setTimerClaimed_false (st : TimerState) (i : Nat) (h : i < NUM_TIMERS) :
    setTimerClaimed st (.slot i) false =
      .ok { st with claimed := (st.claimed &&& (2 ^ 32 - 1 - (1 <<< i))) % 256 } := by
  have h4 : i < 4 := h
  have h31 : i < 31 := by omega
  simp [setTimerClaimed, h31]

/-- A query that answers is made on a valid index. -/
theorem lt_of_hardTimerClaimed_true (st : TimerState) (i : Nat)
    (h : hardTimerClaimed st (.slot i) = .ok true) : i < NUM_TIMERS := by
  by_contra hge
  rw [hardTimerClaimed_out_of_range st i (by omega)] at h
  cases h

theorem lt_of_hardTimerStarted_true (st : TimerState) (i : Nat)
    (h : hardTimerStarted st (.slot i) = .ok true) : i < NUM_TIMERS := by
  by_contra hge
  rw [hardTimerStarted_out_of_range st i (by omega)] at h
  cases h

/-! ## The allocator: `claimTimer` and `unclaimTimer` -/

/-- What `claimTimer` does, by the outcome of the scan. -/
theorem claimTimer_cases (st : TimerState) :
    (∃ i, i < NUM_TIMERS ∧ isFree st i ∧ (∀ j, j < i → ¬ isFree st j) ∧
        claimTimer st =
          .ok (.slot i, { st with claimed := (st.claimed ||| (1 <<< i)) % 256 })) ∨
    ((∀ j, j < NUM_TIMERS → ¬ isFree st j) ∧
        claimTimer st = .ok (.HARD_TIMER_INVALID, st)) := by
  rcases getNextTimer_spec st with ⟨k, hk, hk4, hkf, hkl⟩ | ⟨hk, h1⟩
  · left
    refine ⟨k, hk4, hkf, hkl, ?_⟩
    simp only [claimTimer, hk, ok_bind, setTimerClaimed_true st k hk4]
    rfl
  · right
    refine ⟨h1, ?_⟩
    simp only [claimTimer, hk, ok_bind]
    rfl

/-- C1: `claimTimer` returns the lowest-index slot that is neither started nor
claimed and leaves it claimed; it returns `HARD_TIMER_INVALID`, with the state
unchanged, exactly when no slot is both unstarted and unclaimed; from the
start-up state the first call returns slot 0. -/
theorem claimTimer_lowest_free (st : TimerState) :
    ((∃ i st1, claimTimer st = .ok (.slot i, st1) ∧ i < NUM_TIMERS ∧ isFree st i ∧
          (∀ j, j < i → ¬ isFree st j) ∧ hardTimerClaimed st1 (.slot i) = .ok true) ∨
      (claimTimer st = .ok (.HARD_TIMER_INVALID, st) ∧
          ∀ i, i < NUM_TIMERS → ¬ isFree st i)) ∧
    ((∃ st1, claimTimer st = .ok (.HARD_TIMER_INVALID, st1)) ↔
        ∀ i, i < NUM_TIMERS → ¬ isFree st i) ∧
    (∀ i, i < NUM_TIMERS → isFree st i → (∀ j, j < i → ¬ isFree st j) →
        ∃ st1, claimTimer st = .ok (.slot i, st1)) ∧
    (∃ st1, claimTimer TimerState.init = .ok (.slot 0, st1)) := by
  refine ⟨?_, ?_, ?_, ?_⟩
  · rcases claimTimer_cases st with ⟨i, hi, hf, hlow, hc⟩ | ⟨hnone, hc⟩
    · left
      refine ⟨i, _, hc, hi, hf, hlow, ?_⟩
      rw [hardTimerClaimed_slot _ i hi]
      simp only [testBit_set]
      have h4 : i < 4 := hi
      have : i < 8 := by omega
      simp [this]
    · right
      exact ⟨hc, hnone⟩
  · constructor
    · rintro ⟨st1, h⟩
      rcases claimTimer_cases st with ⟨i, _, _, _, hc⟩ | ⟨hnone, _⟩
      · rw [hc] at h
        cases h
      · exact hnone
    · intro hnone
      rcases claimTimer_cases st with ⟨i, hi, hf, _, _⟩ | ⟨_, hc⟩
      · exact absurd hf (hnone i hi)
      · exact ⟨st, hc⟩
  · intro i hi hf hlow
    rcases claimTimer_cases st with ⟨k, hk4, hkf, hkl, hc⟩ | ⟨hnone, _⟩
    · have : k = i := by
        rcases Nat.lt_trichotomy k i with h | h | h
        · exact absurd hkf (hlow k h)
        · exact h
        · exact absurd hf (hkl i h)
      subst this
      exact ⟨_, hc⟩
    · exact absurd hf (hnone i hi)
  · exact ⟨{ TimerState.init with claimed := 1 }, by decide⟩

/-- C1 at the state where slots 0 and 1 are claimed: slot 2 is returned. -/
theorem claimTimer_lowest_free_witness :
    ∃ st1, claimTimer { TimerState.init with claimed := 3 } = .ok (.slot 2, st1) :=
  (claimTimer_lowest_free { TimerState.init with claimed := 3 }).2.2.1 2 (by decide)
    (by decide) (by decide)

/-- The bit-clearing fact with the mask written as a numeral. -/
theorem testBit_clear_lit (c i j : Nat) (hi : i < 31) :
    ((c &&& (4294967295 - (1 <<< i))) % 256).testBit j
      = (decide (j < 8) && (c.testBit j && !decide (i = j))) :=
  testBit_clear c i j hi

/-- What `unclaimTimer` does on a valid index. -/
theorem unclaimTimer_slot (st : TimerState) (s : Nat) (hs : s < NUM_TIMERS) :
    unclaimTimer st (.slot s) =
      if st.claimed.testBit s = true then
        .ok (true, { st with claimed := (st.claimed &&& (2 ^ 32 - 1 - (1 <<< s))) % 256 })
      else .ok (false, st) := by
  simp only [unclaimTimer, hardTimerClaimed_slot st s hs, ok_bind,
    setTimerClaimed_false st s hs]
  cases st.claimed.testBit s <;> rfl

/-- C3: on a valid slot `s`, `unclaimTimer` returns true if and only if `s` was
claimed; when it returns true, bit `s` of the byte `claimed` is cleared and no
other; when it returns false the byte is unchanged; in both cases the claimed
facts of the other slots, the handles and the driver are untouched. -/
theorem unclaimTimer_clears_only_its_bit (st : TimerState) (s : Nat) (hs : s < NUM_TIMERS) :
    ∃ b st1, unclaimTimer st (.slot s) = .ok (b, st1) ∧
      (b = true ↔ hardTimerClaimed st (.slot s) = .ok true) ∧
      (b = true → hardTimerClaimed st1 (.slot s) = .ok false ∧
        ∀ j, j < 8 → j ≠ s → st1.claimed.testBit j = st.claimed.testBit j) ∧
      (b = false → st1.claimed = st.claimed) ∧
      (∀ j, j < NUM_TIMERS → j ≠ s →
        hardTimerClaimed st1 (.slot j) = hardTimerClaimed st (.slot j)) ∧
      (∀ j, hardTimerStarted st1 (.slot j) = hardTimerStarted st (.slot j)) ∧
      st1.timers = st.timers ∧ st1.hw = st.hw := by
  have h4 : s < 4 := hs
  have h31 : s < 31 := by omega
  rw [unclaimTimer_slot st s hs, hardTimerClaimed_slot st s hs]
  by_cases hb : st.claimed.testBit s = true
  · rw [if_pos hb]
    refine ⟨true, _, rfl, by simp [hb], ?_, by simp, ?_, fun j => rfl, rfl, rfl⟩
    · intro _
      constructor
      · rw [hardTimerClaimed_slot _ s hs]
        simp [testBit_clear_lit _ _ _ h31]
      · intro j hj hne
        have hne2 : ¬ s = j := fun h => hne h.symm
        simp [testBit_clear_lit _ _ _ h31, hj, hne2]
    · intro j hj hne
      have hj4 : j < 4 := hj
      have hj8 : j < 8 := by omega
      have hne2 : ¬ s = j := fun h => hne h.symm
      rw [hardTimerClaimed_slot _ j hj, hardTimerClaimed_slot _ j hj]
      simp [testBit_clear_lit _ _ _ h31, hj8, hne2]
  · rw [if_neg hb]
    exact ⟨false, st, rfl, by simp [hb], by simp, fun _ => rfl, fun _ _ _ => rfl,
      fun _ => rfl, rfl, rfl⟩

/-- C3 at slot 1 of the state where slots 0 and 1 are claimed. -/
theorem unclaimTimer_clears_only_its_bit_witness :
    ∃ b st1, unclaimTimer { TimerState.init with claimed := 3 } (.slot 1) = .ok (b, st1) ∧
      (b = true ↔ hardTimerClaimed { TimerState.init with claimed := 3 } (.slot 1) = .ok true) ∧
      (b = true → hardTimerClaimed st1 (.slot 1) = .ok false ∧
        ∀ j, j < 8 → j ≠ 1 →
          st1.claimed.testBit j = ({ TimerState.init with claimed := 3 } : TimerState).claimed.testBit j) ∧
      (b = false → st1.claimed = ({ TimerState.init with claimed := 3 } : TimerState).claimed) ∧
      (∀ j, j < NUM_TIMERS → j ≠ 1 →
        hardTimerClaimed st1 (.slot j) =
          hardTimerClaimed { TimerState.init with claimed := 3 } (.slot j)) ∧
      (∀ j, hardTimerStarted st1 (.slot j) =
          hardTimerStarted { TimerState.init with claimed := 3 } (.slot j)) ∧
      st1.timers = ({ TimerState.init with claimed := 3 } : TimerState).timers ∧
      st1.hw = ({ TimerState.init with claimed := 3 } : TimerState).hw :=
  unclaimTimer_clears_only_its_bit { TimerState.init with claimed := 3 } 1 (by decide)

/-! ## Cancelling: `cancelHardTimer` -/

/-- What `cancelHardTimer` does to a started slot: the handle is set to `NULL`
after five driver calls, and nothing else changes. -/
theorem cancelHardTimer_started (st : TimerState) (i : Nat) (h : i < NUM_TIMERS)
    (g : hard_timer_group_t) (hg : st.timers ⟨i, h⟩ = some g) :
    cancelHardTimer st (.slot i) =
      .ok (true,
        { claimed := st.claimed,
          timers := Function.update st.timers ⟨i, h⟩ none,
          hw := st.hw ++
            [ .timer_set_alarm g.group g.num false,
              .timer_pause g.group g.num,
              .timer_set_counter_value g.group g.num TIMER_COUNT_ZERO,
              .timer_isr_callback_remove g.group g.num,
              .timer_deinit g.group g.num ] }) := by
  simp only [cancelHardTimer, hardTimerStarted_slot st i h, hg, Option.isSome, ok_bind,
    getTimer, readTimerPtr, writeTimerPtr, h, dite_true, TimerState.emit]
  rfl

/-- A started slot has a handle. -/
theorem handle_of_started (st : TimerState) (i : Nat) (h : i < NUM_TIMERS)
    (hs : hardTimerStarted st (.slot i) = .ok true) : ∃ g, st.timers ⟨i, h⟩ = some g := by
  rw [hardTimerStarted_slot st i h] at hs
  cases hg : st.timers ⟨i, h⟩ with
  | none => rw [hg] at hs; cases hs
  | some g => exact ⟨g, rfl⟩

/-- C4, as the code has it: cancelling a Running slot `s` returns true and
clears the started fact of `s` only; the byte `claimed` is left as it was, so
`s` is still claimed and `claimTimer` does not return it; it is free again
once `unclaimTimer` has been called on it. -/
theorem cancelHardTimer_running_keeps_claim (st : TimerState) (s : Nat)
    (hrun : isRunning st s) :
    ∃ st1, cancelHardTimer st (.slot s) = .ok (true, st1) ∧
      hardTimerStarted st1 (.slot s) = .ok false ∧
      hardTimerClaimed st1 (.slot s) = .ok true ∧
      st1.claimed = st.claimed ∧
      (∀ st2, claimTimer st1 ≠ .ok (.slot s, st2)) ∧
      ∃ st2, unclaimTimer st1 (.slot s) = .ok (true, st2) ∧ isFree st2 s := by
  have hs : s < NUM_TIMERS := lt_of_hardTimerClaimed_true st s hrun.1
  have h4 : s < 4 := hs
  have h31 : s < 31 := by omega
  obtain ⟨g, hg⟩ := handle_of_started st s hs hrun.2
  have hbit : st.claimed.testBit s = true := by
    have := hrun.1
    rw [hardTimerClaimed_slot st s hs] at this
    exact Except.ok.inj this
  rw [cancelHardTimer_started st s hs g hg]
  refine ⟨_, rfl, ?_, ?_, rfl, ?_, ?_⟩
  · rw [hardTimerStarted_slot _ s hs]
    simp
  · rw [hardTimerClaimed_slot _ s hs]
    exact congrArg Except.ok hbit
  · intro st2 hc
    rcases claimTimer_cases
        { claimed := st.claimed, timers := Function.update st.timers ⟨s, hs⟩ none,
          hw := st.hw ++
            [ .timer_set_alarm g.group g.num false,
              .timer_pause g.group g.num,
              .timer_set_counter_value g.group g.num TIMER_COUNT_ZERO,
              .timer_isr_callback_remove g.group g.num,
              .timer_deinit g.group g.num ] } with ⟨i, hi, hf, _, hci⟩ | ⟨_, hci⟩
    · rw [hci] at hc
      have his : i = s := by
        have := (Prod.mk.inj (Except.ok.inj hc)).1
        exact hard_timer_t.slot.inj this
      subst his
      rw [isFree_iff _ i hi] at hf
      rw [hbit] at hf
      exact Bool.noConfusion hf.2
    · rw [hci] at hc
      cases hc
  · rw [unclaimTimer_slot _ s hs]
    refine ⟨_, if_pos hbit, ?_⟩
    rw [isFree_iff _ s hs]
    constructor
    · simp
    · show ((st.claimed &&& (2 ^ 32 - 1 - (1 <<< s))) % 256).testBit s = false
      rw [testBit_clear _ _ _ h31]
      simp

/-- C4 as amended, at the Running slot 0 of `runningSlot0`. -/
theorem cancelHardTimer_running_keeps_claim_witness :
    ∃ st1, cancelHardTimer runningSlot0 (.slot 0) = .ok (true, st1) ∧
      hardTimerStarted st1 (.slot 0) = .ok false ∧
      hardTimerClaimed st1 (.slot 0) = .ok true ∧
      st1.claimed = runningSlot0.claimed ∧
      (∀ st2, claimTimer st1 ≠ .ok (.slot 0, st2)) ∧
      ∃ st2, unclaimTimer st1 (.slot 0) = .ok (true, st2) ∧ isFree st2 0 :=
  cancelHardTimer_running_keeps_claim runningSlot0 0 (by decide)

/-- C4 as stated fails: slot 0 of `runningSlot0` is Running (the claimed byte
and the handles are those reached from start-up by `claimTimer` and
`setHardTimer` on slot 0); cancelling it returns true, and afterwards
`hardTimerClaimed` is still true and the next `claimTimer` returns slot 1. -/
theorem cancelHardTimer_clears_claim_counterexample :
    (run TimerState.init
        [.claimTimer, .setHardTimer (some (.slot 0)) (some 1000) (some 1) 0]).map
      (fun r => (r.2.claimed, r.2.timers)) = .ok (runningSlot0.claimed, runningSlot0.timers) ∧
    isRunning runningSlot0 0 ∧
    (cancelHardTimer runningSlot0 (.slot 0)).map
      (fun r => (r.1, hardTimerClaimed r.2 (.slot 0), hardTimerStarted r.2 (.slot 0),
        (claimTimer r.2).map Prod.fst)) =
      .ok (true, .ok true, .ok false, .ok (.slot 1)) := by
  decide

/-- The branch of `cancelHardTimer` taken when `hardTimerStarted` answers
false. -/
theorem cancelHardTimer_of_not_started (st : TimerState) (t : hard_timer_t)
    (h : hardTimerStarted st t = .ok false) :
    cancelHardTimer st t = .ok (false, st) := by
  simp only [cancelHardTimer, h, ok_bind]
  rfl

/-- C5: cancelling a slot that is not started (Free, Claimed but not started,
or the sentinel) returns false and changes nothing: the byte `claimed`, the
handles and the driver record are those of before. -/
theorem cancelHardTimer_not_started (st : TimerState) (t : hard_timer_t)
    (h : hardTimerStarted st t = .ok false) :
    cancelHardTimer st t = .ok (false, st) :=
  cancelHardTimer_of_not_started st t h

/-- C5 at the claimed, not started slot 1 of the state where slots 0 and 1 are
claimed. -/
theorem cancelHardTimer_not_started_witness :
    cancelHardTimer { TimerState.init with claimed := 3 } (.slot 1) =
      .ok (false, { TimerState.init with claimed := 3 }) :=
  cancelHardTimer_not_started { TimerState.init with claimed := 3 } (.slot 1) (by decide)

/-! ## The frequency resolver: `getHardTimerStats` -/

/-- The halving loop ends within its bound and moves a power of two from the
ticks into the scalar. -/
theorem scaleLoop_spec (fuel : Nat) :
    ∀ scalar ticks, 1 ≤ scalar → SCALAR_MAX < scalar * 2 ^ fuel →
      ∃ s t k, scaleLoop fuel scalar ticks = .ok (s, t) ∧ s = scalar * 2 ^ k ∧
        ticks = t * 2 ^ k ∧ (t % 2 ≠ 0 ∨ SCALAR_MAX < s * 2) ∧
        (scalar ≤ SCALAR_MAX → s ≤ SCALAR_MAX) := by
  induction fuel with
  | zero =>
    intro scalar ticks _ hf
    have hgt : ¬ (ticks % 2 = 0 ∧ scalar * 2 ≤ SCALAR_MAX) := by
      simp only [pow_zero, Nat.mul_one] at hf
      intro h
      have := h.2
      omega
    refine ⟨scalar, ticks, 0, ?_, by simp, by simp, ?_, fun h => h⟩
    · rw [scaleLoop, if_neg hgt]
    · by_cases ht : ticks % 2 = 0
      · right
        by_contra hc
        exact hgt ⟨ht, by omega⟩
      · left; exact ht
  | succ n ih =>
    intro scalar ticks h1 hf
    by_cases hc : ticks % 2 = 0 ∧ scalar * 2 ≤ SCALAR_MAX
    · have hmod : scalar * 2 % 2 ^ 16 = scalar * 2 := by
        apply Nat.mod_eq_of_lt
        have := hc.2
        have h16 : (2 : Nat) ^ 16 = 65536 := by norm_num
        have hS : SCALAR_MAX = 65535 := rfl
        omega
      have hf2 : SCALAR_MAX < scalar * 2 * 2 ^ n := by
        have : scalar * 2 * 2 ^ n = scalar * 2 ^ (n + 1) := by ring
        rw [this]; exact hf
      obtain ⟨s, t, k, hrun, hs, ht, hstop, hle⟩ := ih (scalar * 2) (ticks / 2) (by omega) hf2
      refine ⟨s, t, k + 1, ?_, ?_, ?_, hstop, fun _ => hle hc.2⟩
      · rw [scaleLoop, if_pos hc]
        simp only [hmod]
        exact hrun
      · rw [hs]; ring
      · have h2 : ticks = ticks / 2 * 2 := by omega
        rw [h2, ht]; ring
    · refine ⟨scalar, ticks, 0, ?_, by simp, by simp, ?_, fun h => h⟩
      · rw [scaleLoop, if_neg hc]
      · by_cases ht : ticks % 2 = 0
        · right
          by_contra hcc
          exact hc ⟨ht, by omega⟩
        · left; exact ht

/-- The scalar and the ticks computed from a non-zero `target` multiply to
`target`, and the scalar fits its 16 bits. -/
theorem scalarTicks_spec (target : Nat) (h : 1 ≤ target) :
    ∃ s t, scalarTicks target = .ok (s, t) ∧ s * t = target ∧ 1 ≤ s ∧ s ≤ SCALAR_MAX ∧
      (target ≤ SCALAR_MAX → s = target ∧ t = 1) ∧
      (SCALAR_MAX < target → ∃ k, s = 2 ^ k ∧ target = t * 2 ^ k ∧
        (t % 2 ≠ 0 ∨ SCALAR_MAX < s * 2)) := by
  by_cases hle : target ≤ SCALAR_MAX
  · have hmod : target % 2 ^ 16 = target := by
      apply Nat.mod_eq_of_lt
      have h16 : (2 : Nat) ^ 16 = 65536 := by norm_num
      have hS : SCALAR_MAX = 65535 := rfl
      omega
    refine ⟨target, 1, ?_, by simp, h, hle, fun _ => ⟨rfl, rfl⟩, fun hgt => by omega⟩
    rw [scalarTicks, if_pos hle, hmod]
    rfl
  · obtain ⟨s, t, k, hrun, hs, ht, hstop, hsle⟩ :=
      scaleLoop_spec 16 1 target (le_refl 1) (by decide)
    have hs2 : s = 2 ^ k := by rw [hs]; simp
    refine ⟨s, t, ?_, ?_, ?_, hsle (by decide), fun h2 => absurd h2 hle,
      fun _ => ⟨k, hs2, ht, hstop⟩⟩
    · rw [scalarTicks, if_neg hle]
      exact hrun
    · rw [hs2, ht]; ring
    · rw [hs2]; exact Nat.one_le_two_pow

/-- The sentinel is always replaced by the result of the scan. -/
theorem resolveTimer_sentinel (st : TimerState) :
    resolveTimer st .HARD_TIMER_INVALID = getNextTimer st := by
  simp [resolveTimer, hardTimerClaimed, hardTimerStarted, getTimer, ok_bind, pure_ok]

/-- A claimed slot is kept. -/
theorem resolveTimer_claimed (st : TimerState) (i : Nat)
    (h : hardTimerClaimed st (.slot i) = .ok true) :
    resolveTimer st (.slot i) = .ok (.slot i) := by
  simp [resolveTimer, h, ok_bind, pure_ok]

/-- A slot that is not started is kept. -/
theorem resolveTimer_not_started (st : TimerState) (i : Nat)
    (h : hardTimerStarted st (.slot i) = .ok false) :
    resolveTimer st (.slot i) = .ok (.slot i) := by
  have hi : i < NUM_TIMERS := by
    by_contra hge
    rw [hardTimerStarted_out_of_range st i (by omega)] at h
    cases h
  rw [resolveTimer, hardTimerClaimed_slot st i hi, h]
  cases st.claimed.testBit i <;> simp [ok_bind, pure_ok]

/-- A slot that is started and not claimed is replaced by the result of the
scan. -/
theorem resolveTimer_unowned (st : TimerState) (i : Nat)
    (hc : hardTimerClaimed st (.slot i) = .ok false)
    (hs : hardTimerStarted st (.slot i) = .ok true) :
    resolveTimer st (.slot i) = getNextTimer st := by
  simp [resolveTimer, hc, hs, ok_bind, pure_ok]

/-- On an identifier in range the resolution answers, with a slot in range. -/
theorem resolveTimer_inRange (st : TimerState) (timer : hard_timer_t) (h : inRange timer) :
    ∃ timer1, resolveTimer st timer = .ok timer1 ∧ inRange timer1 := by
  have hnext : ∃ timer1, getNextTimer st = .ok timer1 ∧ inRange timer1 := by
    rcases getNextTimer_spec st with ⟨k, hk, hk4, _, _⟩ | ⟨hk, _⟩
    · exact ⟨_, hk, hk4⟩
    · exact ⟨_, hk, trivial⟩
  cases timer with
  | HARD_TIMER_INVALID =>
    rw [resolveTimer_sentinel]
    exact hnext
  | slot i =>
    have hi : i < NUM_TIMERS := h
    cases hc : st.claimed.testBit i
    · cases hs : (st.timers ⟨i, hi⟩).isSome
      · refine ⟨.slot i, resolveTimer_not_started st i ?_, hi⟩
        rw [hardTimerStarted_slot st i hi, hs]
      · rw [resolveTimer_unowned st i (by rw [hardTimerClaimed_slot st i hi, hc])
          (by rw [hardTimerStarted_slot st i hi, hs])]
        exact hnext
    · exact ⟨.slot i, resolveTimer_claimed st i (by rw [hardTimerClaimed_slot st i hi, hc]), hi⟩

/-- The quotient `APB_CLK_FREQ / f` of an accepted frequency is at least 16. -/
theorem target_ge (f : Nat) (h1 : 1 ≤ f) (h2 : f ≤ FREQ_MAX) : 16 ≤ APB_CLK_FREQ / f := by
  rw [Nat.le_div_iff_mul_le (by omega)]
  have : FREQ_MAX = 5000000 := rfl
  have : APB_CLK_FREQ = 80000000 := rfl
  omega

/-- The result of `getHardTimerStats` on an accepted frequency, given the
resolved slot. -/
theorem getHardTimerStats_of_resolve (st : TimerState) (f : Nat) (timer timer1 : hard_timer_t)
    (h1 : 1 ≤ f) (h2 : f ≤ FREQ_MAX) (hr : resolveTimer st timer = .ok timer1) :
    ∃ s t, scalarTicks (APB_CLK_FREQ / f) = .ok (s, t) ∧ s * t = APB_CLK_FREQ / f ∧
      getHardTimerStats st f timer = .ok
        { status := if timer1 = .HARD_TIMER_INVALID then .HARD_TIMER_FAIL
                    else if APB_CLK_FREQ % f ≠ 0 then .HARD_TIMER_SLIGHTLY_OFF
                    else .HARD_TIMER_OK,
          freq := APB_CLK_FREQ / (APB_CLK_FREQ / f),
          timer := timer1, scalar := s, timerTicks := t } := by
  have htar := target_ge f h1 h2
  obtain ⟨s, t, hst, hmul, _, _, _, _⟩ := scalarTicks_spec (APB_CLK_FREQ / f) (by omega)
  refine ⟨s, t, hst, hmul, ?_⟩
  have hf0 : ¬ f = 0 := by omega
  have hne : ¬ s * t = 0 := by omega
  have hne2 : ¬ APB_CLK_FREQ / f = 0 := by omega
  rw [getHardTimerStats, if_neg hf0]
  simp only [hst, ok_bind, if_neg hne, hr, hmul, pure_ok]
  by_cases hinv : timer1 = .HARD_TIMER_INVALID
  · simp [hinv, hne2]
  · simp [hinv, hne2]

/-! ## Starting: `setHardTimer` -/

/-- C6: `setHardTimer` called with a null callback, with the frequency 0 or
with a frequency above `FREQ_MAX` returns false and leaves the state (the byte
`claimed`, every handle, the driver record) and the caller's `*timer` and
`*freq` as they were. -/
theorem setHardTimer_rejects_invalid (st : TimerState) (timer : Option hard_timer_t)
    (freq : Option Nat) (function : Option Nat) (priority : Nat)
    (h : function = none ∨ freq = some 0 ∨ ∃ f, freq = some f ∧ FREQ_MAX < f) :
    setHardTimer st timer freq function priority =
      .ok { ret := false, timer := timer, freq := freq, st := st } := by
  cases function with
  | none => rfl
  | some fn =>
    cases freq with
    | none => rfl
    | some f =>
      cases timer with
      | none => rfl
      | some t =>
        have hbad : f = 0 ∨ f > FREQ_MAX := by
          rcases h with h | h | ⟨f1, hf1, hgt⟩
          · cases h
          · left; exact Option.some.inj h
          · right
            have : f = f1 := Option.some.inj hf1
            rw [this]; exact hgt
        simp only [setHardTimer, if_pos hbad]

/-- C6 at start-up, for the frequency 0, the frequency 5,000,001 and a null
callback. -/
theorem setHardTimer_rejects_invalid_witness :
    setHardTimer TimerState.init (some (.slot 0)) (some 0) (some 1) 0 =
      .ok { ret := false, timer := some (.slot 0), freq := some 0, st := TimerState.init } ∧
    setHardTimer TimerState.init (some .HARD_TIMER_INVALID) (some 5000001) (some 1) 0 =
      .ok { ret := false, timer := some .HARD_TIMER_INVALID, freq := some 5000001,
            st := TimerState.init } ∧
    setHardTimer TimerState.init (some (.slot 0)) (some 1000) none 0 =
      .ok { ret := false, timer := some (.slot 0), freq := some 1000, st := TimerState.init } :=
  ⟨setHardTimer_rejects_invalid _ _ _ _ _ (Or.inr (Or.inl rfl)),
   setHardTimer_rejects_invalid _ _ _ _ _ (Or.inr (Or.inr ⟨5000001, rfl, by decide⟩)),
   setHardTimer_rejects_invalid _ _ _ _ _ (Or.inl rfl)⟩

/-- C7: on a Running slot `s`, `setHardTimer` with a callback and an accepted
frequency returns false, leaves `*timer` equal to `s` and leaves the state (the
byte `claimed`, every handle, the driver record) as it was; `*freq` holds the
resolved frequency. -/
theorem setHardTimer_running_rejected (st : TimerState) (s f fn priority : Nat)
    (hrun : isRunning st s) (h1 : 1 ≤ f) (h2 : f ≤ FREQ_MAX) :
    setHardTimer st (some (.slot s)) (some f) (some fn) priority =
      .ok { ret := false, timer := some (.slot s),
            freq := some (APB_CLK_FREQ / (APB_CLK_FREQ / f)), st := st } := by
  obtain ⟨sc, t, _, _, hstats⟩ :=
    getHardTimerStats_of_resolve st f (.slot s) (.slot s) h1 h2 (resolveTimer_claimed st s hrun.1)
  have hok : ¬ (f = 0 ∨ f > FREQ_MAX) := by omega
  simp only [setHardTimer, if_neg hok, hstats, ok_bind, hrun.2, pure_ok]
  simp

/-- C7 at the Running slot 0 of `runningSlot0`, for 1000 Hz. -/
theorem setHardTimer_running_rejected_witness :
    setHardTimer runningSlot0 (some (.slot 0)) (some 1000) (some 7) 0 =
      .ok { ret := false, timer := some (.slot 0),
            freq := some (APB_CLK_FREQ / (APB_CLK_FREQ / 1000)), st := runningSlot0 } :=
  setHardTimer_running_rejected runningSlot0 0 1000 7 0 (by decide) (by decide) (by decide)

/-! ## Status and frequency returned by the resolver -/

/-- The resolution yields the sentinel only when no slot is free. -/
theorem resolveTimer_sentinel_only_if_none_free (st : TimerState) (timer : hard_timer_t)
    (h : resolveTimer st timer = .ok .HARD_TIMER_INVALID) :
    ∀ i, i < NUM_TIMERS → ¬ isFree st i := by
  have hnext : getNextTimer st = .ok .HARD_TIMER_INVALID → ∀ i, i < NUM_TIMERS → ¬ isFree st i := by
    intro hn
    rcases getNextTimer_spec st with ⟨k, hk, _, _, _⟩ | ⟨_, hnone⟩
    · rw [hk] at hn; cases hn
    · exact hnone
  cases timer with
  | HARD_TIMER_INVALID =>
    rw [resolveTimer_sentinel] at h
    exact hnext h
  | slot i =>
    by_cases hi : i < NUM_TIMERS
    · cases hc : st.claimed.testBit i
      · cases hs : (st.timers ⟨i, hi⟩).isSome
        · rw [resolveTimer_not_started st i (by rw [hardTimerStarted_slot st i hi, hs])] at h
          cases h
        · rw [resolveTimer_unowned st i (by rw [hardTimerClaimed_slot st i hi, hc])
            (by rw [hardTimerStarted_slot st i hi, hs])] at h
          exact hnext h
      · rw [resolveTimer_claimed st i (by rw [hardTimerClaimed_slot st i hi, hc])] at h
        cases h
    · rw [resolveTimer, hardTimerClaimed_out_of_range st i (by omega)] at h
      cases h

/-- C9, as the code has it: for 290,000 Hz, on an identifier in range and with
a free slot, the resolver returns `HARD_TIMER_SLIGHTLY_OFF` with scalar 275
and one tick, and writes back 290909, the integer quotient of the clock by
275; the clock is not a multiple of it, the remainder being 25. -/
theorem getHardTimerStats_test_fast_freq (st : TimerState) (timer : hard_timer_t)
    (hin : inRange timer) (hfree : ∃ i, i < NUM_TIMERS ∧ isFree st i) :
    ∃ timer1, timer1 ≠ .HARD_TIMER_INVALID ∧
      getHardTimerStats st TEST_FAST_FREQ timer = .ok
        { status := .HARD_TIMER_SLIGHTLY_OFF, freq := 290909, timer := timer1,
          scalar := 275, timerTicks := 1 } ∧
      290909 = APB_CLK_FREQ / (275 * 1) ∧ APB_CLK_FREQ % 290909 = 25 := by
  obtain ⟨timer1, hr, _⟩ := resolveTimer_inRange st timer hin
  have hne : timer1 ≠ .HARD_TIMER_INVALID := by
    intro heq
    rw [heq] at hr
    obtain ⟨i, hi, hf⟩ := hfree
    exact resolveTimer_sentinel_only_if_none_free st timer hr i hi hf
  obtain ⟨s, t, hst, _, hstats⟩ :=
    getHardTimerStats_of_resolve st TEST_FAST_FREQ timer timer1 (by decide) (by decide) hr
  have hpair : scalarTicks (APB_CLK_FREQ / TEST_FAST_FREQ) = .ok (275, 1) := by decide
  rw [hpair] at hst
  have hs : s = 275 := (Prod.mk.inj (Except.ok.inj hst)).1.symm
  have ht : t = 1 := (Prod.mk.inj (Except.ok.inj hst)).2.symm
  subst hs
  subst ht
  refine ⟨timer1, hne, ?_, by decide, by decide⟩
  rw [hstats, if_neg hne]
  rfl

/-- C9 as amended, at start-up with the sentinel as requested slot. -/
theorem getHardTimerStats_test_fast_freq_witness :
    ∃ timer1, timer1 ≠ .HARD_TIMER_INVALID ∧
      getHardTimerStats TimerState.init TEST_FAST_FREQ .HARD_TIMER_INVALID = .ok
        { status := .HARD_TIMER_SLIGHTLY_OFF, freq := 290909, timer := timer1,
          scalar := 275, timerTicks := 1 } ∧
      290909 = APB_CLK_FREQ / (275 * 1) ∧ APB_CLK_FREQ % 290909 = 25 :=
  getHardTimerStats_test_fast_freq TimerState.init .HARD_TIMER_INVALID (by decide)
    ⟨0, by decide, by decide⟩

/-- C9 as stated fails: at start-up, for 290,000 Hz, the frequency written
back is 290909, and 80,000,000 is not a multiple of it. -/
theorem getHardTimerStats_divides_clock_counterexample :
    (getHardTimerStats TimerState.init TEST_FAST_FREQ .HARD_TIMER_INVALID).map
      (fun r => (r.status, r.freq, APB_CLK_FREQ % r.freq)) =
      .ok (.HARD_TIMER_SLIGHTLY_OFF, 290909, 25) := by
  decide

/-- C10: for an accepted frequency `f` and an identifier in range, the
resolver returns `HARD_TIMER_FAIL` exactly when the resolved slot is the
sentinel, which happens only when no slot is free; otherwise it returns
`HARD_TIMER_OK` exactly when `f` divides the clock and
`HARD_TIMER_SLIGHTLY_OFF` exactly when it does not; and whenever it returns
`HARD_TIMER_OK` the frequency written back is `f`. -/
theorem getHardTimerStats_status (st : TimerState) (f : Nat) (timer : hard_timer_t)
    (h1 : 1 ≤ f) (h2 : f ≤ FREQ_MAX) (hin : inRange timer) :
    ∃ r, getHardTimerStats st f timer = .ok r ∧
      (r.status = .HARD_TIMER_FAIL ↔ r.timer = .HARD_TIMER_INVALID) ∧
      (r.timer = .HARD_TIMER_INVALID → ∀ i, i < NUM_TIMERS → ¬ isFree st i) ∧
      (r.timer ≠ .HARD_TIMER_INVALID →
        (r.status = .HARD_TIMER_OK ↔ APB_CLK_FREQ % f = 0) ∧
        (r.status = .HARD_TIMER_SLIGHTLY_OFF ↔ APB_CLK_FREQ % f ≠ 0)) ∧
      (r.status = .HARD_TIMER_OK → r.freq = f) := by
  obtain ⟨timer1, hr, _⟩ := resolveTimer_inRange st timer hin
  obtain ⟨s, t, _, _, hstats⟩ := getHardTimerStats_of_resolve st f timer timer1 h1 h2 hr
  refine ⟨_, hstats, ?_, ?_, ?_, ?_⟩
  · by_cases hinv : timer1 = .HARD_TIMER_INVALID
    · simp [hinv]
    · by_cases hdiv : APB_CLK_FREQ % f = 0 <;> simp [hinv, hdiv]
  · intro hinv
    have hinv1 : timer1 = .HARD_TIMER_INVALID := hinv
    rw [hinv1] at hr
    exact resolveTimer_sentinel_only_if_none_free st timer hr
  · intro hne
    have hne1 : ¬ timer1 = .HARD_TIMER_INVALID := hne
    by_cases hdiv : APB_CLK_FREQ % f = 0 <;> simp [hne1, hdiv]
  · intro hok
    by_cases hinv : timer1 = .HARD_TIMER_INVALID
    · simp [hinv] at hok
    · by_cases hdiv : APB_CLK_FREQ % f = 0
      · have hdvd : f ∣ APB_CLK_FREQ := Nat.dvd_of_mod_eq_zero hdiv
        exact Nat.div_div_self hdvd (by decide)
      · simp [hinv, hdiv] at hok

/-- C10 at start-up, for 1000 Hz and the sentinel as requested slot. -/
theorem getHardTimerStats_status_witness :
    ∃ r, getHardTimerStats TimerState.init 1000 .HARD_TIMER_INVALID = .ok r ∧
      (r.status = .HARD_TIMER_FAIL ↔ r.timer = .HARD_TIMER_INVALID) ∧
      (r.timer = .HARD_TIMER_INVALID → ∀ i, i < NUM_TIMERS → ¬ isFree TimerState.init i) ∧
      (r.timer ≠ .HARD_TIMER_INVALID →
        (r.status = .HARD_TIMER_OK ↔ APB_CLK_FREQ % 1000 = 0) ∧
        (r.status = .HARD_TIMER_SLIGHTLY_OFF ↔ APB_CLK_FREQ % 1000 ≠ 0)) ∧
      (r.status = .HARD_TIMER_OK → r.freq = 1000) :=
  getHardTimerStats_status TimerState.init 1000 .HARD_TIMER_INVALID (by decide) (by decide)
    (by decide)

/-! ## Effect of one call on the state -/

/-- When the resolver answers, its `timer` is the resolved slot. -/
theorem resolveTimer_of_getHardTimerStats (st : TimerState) (f : Nat) (t : hard_timer_t)
    (r : HardTimerStats) (h : getHardTimerStats st f t = .ok r) :
    resolveTimer st t = .ok r.timer ∧
      (r.status = .HARD_TIMER_FAIL → r.timer = .HARD_TIMER_INVALID) := by
  unfold getHardTimerStats at h
  split at h
  · cases h
  · cases hp : scalarTicks (APB_CLK_FREQ / f) with
    | error e => simp only [hp, error_bind] at h; cases h
    | ok pair =>
      simp only [hp, ok_bind] at h
      split at h
      · cases h
      · cases hr : resolveTimer st t with
        | error e => simp only [hr, error_bind] at h; cases h
        | ok timer1 =>
          simp only [hr, ok_bind, pure_ok] at h
          split at h
          · rename_i hinv
            have := Except.ok.inj h
            subst this
            exact ⟨rfl, fun _ => hinv⟩
          · rename_i hinv
            have := Except.ok.inj h
            subst this
            refine ⟨rfl, fun hfail => ?_⟩
            simp only at hfail
            split at hfail <;> cases hfail

/-- What `setHardTimer` can do when it answers: nothing, returning false; or
set the handle of the resolved slot, which was not started, returning true. -/
theorem setHardTimer_cases (st : TimerState) (timer : Option hard_timer_t) (freq : Option Nat)
    (function : Option Nat) (priority : Nat) (r : SetResult)
    (h : setHardTimer st timer freq function priority = .ok r) :
    (r.ret = false ∧ r.st = st) ∨
    (∃ t i g calls, ∃ hi : i < NUM_TIMERS, timer = some t ∧ resolveTimer st t = .ok (.slot i) ∧
      hardTimerStarted st (.slot i) = .ok false ∧ r.ret = true ∧ r.timer = some (.slot i) ∧
      r.st = { claimed := st.claimed,
               timers := Function.update st.timers ⟨i, hi⟩ (some g),
               hw := st.hw ++ calls }) := by
  unfold setHardTimer at h
  split at h
  · rename_i fn f t
    split at h
    · left
      have := Except.ok.inj h
      subst this
      exact ⟨rfl, rfl⟩
    · cases hg : getHardTimerStats st f t with
      | error e => rw [hg] at h; cases h
      | ok r0 =>
        have hres := resolveTimer_of_getHardTimerStats st f t r0 hg
        rw [hg] at h
        simp only [ok_bind, pure_ok] at h
        split at h
        · left
          have := Except.ok.inj h
          subst this
          exact ⟨rfl, rfl⟩
        · cases hs : hardTimerStarted st r0.timer with
          | error e => rw [hs] at h; cases h
          | ok started =>
            rw [hs] at h
            simp only [ok_bind] at h
            cases started with
            | true =>
              left
              simp only [if_true] at h
              have := Except.ok.inj h
              subst this
              exact ⟨rfl, rfl⟩
            | false =>
              right
              cases ht : r0.timer with
              | HARD_TIMER_INVALID =>
                rw [ht] at h
                simp [getTimer] at h
              | slot i =>
                rw [ht] at h hs
                simp only [getTimer, Bool.false_eq_true, if_false] at h
                have hi : i < NUM_TIMERS := by
                  by_contra hge
                  rw [hardTimerStarted_out_of_range st i (by omega)] at hs
                  cases hs
                cases hgi : timerGroups[i]? with
                | none => rw [hgi] at h; cases h
                | some g =>
                  rw [hgi] at h
                  simp only [writeTimerPtr, hi, dite_true, ok_bind, TimerState.emit] at h
                  have := Except.ok.inj h
                  subst this
                  exact ⟨t, i, g, _, hi, rfl, by rw [← ht]; exact hres.1, hs, rfl, rfl, rfl⟩
  · left
    have := Except.ok.inj h
    subst this
    exact ⟨rfl, rfl⟩

/-- What `cancelHardTimer` can do when it answers: nothing, returning false;
or null the handle of a started slot, returning true. -/
theorem cancelHardTimer_cases (st : TimerState) (t : hard_timer_t) (b : Bool)
    (st1 : TimerState) (h : cancelHardTimer st t = .ok (b, st1)) :
    (b = false ∧ st1 = st) ∨
    (∃ i calls, ∃ hi : i < NUM_TIMERS, t = .slot i ∧ b = true ∧
      st1 = { claimed := st.claimed,
              timers := Function.update st.timers ⟨i, hi⟩ none,
              hw := st.hw ++ calls }) := by
  cases hs : hardTimerStarted st t with
  | error e =>
    simp only [cancelHardTimer, hs, error_bind] at h
    cases h
  | ok started =>
    cases started with
    | false =>
      left
      rw [cancelHardTimer_of_not_started st t hs] at h
      have := Prod.mk.inj (Except.ok.inj h)
      exact ⟨this.1.symm, this.2.symm⟩
    | true =>
      right
      cases t with
      | HARD_TIMER_INVALID => simp [hardTimerStarted, getTimer] at hs
      | slot i =>
        have hi : i < NUM_TIMERS := lt_of_hardTimerStarted_true st i hs
        obtain ⟨g, hg⟩ := handle_of_started st i hi hs
        rw [cancelHardTimer_started st i hi g hg] at h
        have := Prod.mk.inj (Except.ok.inj h)
        exact ⟨i, _, hi, rfl, this.1.symm, this.2.symm⟩

/-- What `unclaimTimer` can do when it answers: nothing, returning false; or
clear the bit of a valid, claimed slot, returning true. -/
theorem unclaimTimer_cases (st : TimerState) (t : hard_timer_t) (b : Bool)
    (st1 : TimerState) (h : unclaimTimer st t = .ok (b, st1)) :
    (b = false ∧ st1 = st) ∨
    (∃ i, i < NUM_TIMERS ∧ t = .slot i ∧ b = true ∧ st.claimed.testBit i = true ∧
      st1 = { st with claimed := (st.claimed &&& (2 ^ 32 - 1 - (1 <<< i))) % 256 }) := by
  cases t with
  | HARD_TIMER_INVALID =>
    left
    simp only [unclaimTimer, hardTimerClaimed, ok_bind, pure_ok] at h
    have := Prod.mk.inj (Except.ok.inj h)
    exact ⟨this.1.symm, this.2.symm⟩
  | slot i =>
    by_cases hi : i < NUM_TIMERS
    · rw [unclaimTimer_slot st i hi] at h
      split at h
      · rename_i hb
        right
        have := Prod.mk.inj (Except.ok.inj h)
        exact ⟨i, hi, rfl, this.1.symm, hb, this.2.symm⟩
      · left
        have := Prod.mk.inj (Except.ok.inj h)
        exact ⟨this.1.symm, this.2.symm⟩
    · simp only [unclaimTimer, hardTimerClaimed_out_of_range st i (by omega), error_bind] at h
      cases h

/-! ## Sequences of calls -/

/-- A run over a non-empty sequence is a first call followed by a run. -/
theorem run_cons_ok (st : TimerState) (c : Call) (cs : List Call) (rets : List Ret)
    (st1 : TimerState) (h : run st (c :: cs) = .ok (rets, st1)) :
    ∃ r st2 rs, step st c = .ok (r, st2) ∧ run st2 cs = .ok (rs, st1) ∧ rets = r :: rs := by
  rw [run] at h
  cases hs : step st c with
  | error e => simp only [hs, error_bind] at h; cases h
  | ok p =>
    simp only [hs, ok_bind] at h
    cases hr : run p.2 cs with
    | error e => simp only [hr, error_bind] at h; cases h
    | ok q =>
      simp only [hr, ok_bind, pure_ok] at h
      have := Prod.mk.inj (Except.ok.inj h)
      exact ⟨p.1, p.2, q.1, rfl, by rw [← this.2]; exact hr, this.1.symm⟩

/-- The claimed bit of a valid slot `s` survives every call other than
`unclaimTimer` on `s`. -/
theorem step_keeps_claimed_bit (st st1 : TimerState) (c : Call) (r : Ret) (s : Nat)
    (hs : s < NUM_TIMERS) (h : step st c = .ok (r, st1)) (hc : c ≠ .unclaimTimer (.slot s))
    (hbit : st.claimed.testBit s = true) : st1.claimed.testBit s = true := by
  have h4 : s < 4 := hs
  have h8 : s < 8 := by omega
  cases c with
  | claimTimer =>
    simp only [step] at h
    rcases claimTimer_cases st with ⟨i, _, _, _, hcl⟩ | ⟨_, hcl⟩
    · simp only [hcl, ok_bind, pure_ok] at h
      have := (Prod.mk.inj (Except.ok.inj h)).2
      subst this
      simp [testBit_set, h8, hbit]
    · simp only [hcl, ok_bind, pure_ok] at h
      have := (Prod.mk.inj (Except.ok.inj h)).2
      subst this
      exact hbit
  | unclaimTimer t =>
    simp only [step] at h
    cases hu : unclaimTimer st t with
    | error e => simp only [hu, error_bind] at h; cases h
    | ok p =>
      simp only [hu, ok_bind, pure_ok] at h
      have hst := (Prod.mk.inj (Except.ok.inj h)).2
      rcases unclaimTimer_cases st t p.1 p.2 hu with ⟨_, h2⟩ | ⟨i, hi, hti, _, _, h2⟩
      · rw [← hst, h2]; exact hbit
      · have hne : ¬ i = s := by
          intro heq
          apply hc
          rw [hti, heq]
        have hi4 : i < 4 := hi
        rw [← hst, h2]
        show ((st.claimed &&& (2 ^ 32 - 1 - (1 <<< i))) % 256).testBit s = true
        rw [testBit_clear _ _ _ (by omega)]
        simp [h8, hbit, hne]
  | setHardTimer t f fn p =>
    simp only [step] at h
    cases hu : setHardTimer st t f fn p with
    | error e => simp only [hu, error_bind] at h; cases h
    | ok q =>
      simp only [hu, ok_bind, pure_ok] at h
      have hst := (Prod.mk.inj (Except.ok.inj h)).2
      rcases setHardTimer_cases st t f fn p q hu with ⟨_, h2⟩ | ⟨_, _, _, _, _, _, _, _, _, _, h2⟩
      · rw [← hst, h2]; exact hbit
      · rw [← hst, h2]; exact hbit
  | cancelHardTimer t =>
    simp only [step] at h
    cases hu : cancelHardTimer st t with
    | error e => simp only [hu, error_bind] at h; cases h
    | ok q =>
      simp only [hu, ok_bind, pure_ok] at h
      have hst := (Prod.mk.inj (Except.ok.inj h)).2
      rcases cancelHardTimer_cases st t q.1 q.2 hu with ⟨_, h2⟩ | ⟨_, _, _, _, _, h2⟩
      · rw [← hst, h2]; exact hbit
      · rw [← hst, h2]; exact hbit

/-- A `claimTimer` step that returns slot `s` finds the bit of `s` clear and
leaves it set. -/
theorem step_claimTimer_slot (st st1 : TimerState) (s : Nat)
    (h : step st .claimTimer = .ok (.timer (.slot s), st1)) :
    s < NUM_TIMERS ∧ st.claimed.testBit s = false ∧ st1.claimed.testBit s = true := by
  simp only [step] at h
  rcases claimTimer_cases st with ⟨i, hi, hf, _, hcl⟩ | ⟨_, hcl⟩
  · simp only [hcl, ok_bind, pure_ok] at h
    have hp := Prod.mk.inj (Except.ok.inj h)
    have his : i = s := hard_timer_t.slot.inj (Ret.timer.inj hp.1)
    subst his
    have h4 : i < 4 := hi
    refine ⟨hi, ((isFree_iff st i hi).mp hf).2, ?_⟩
    rw [← hp.2]
    have h8 : i < 8 := by omega
    simp [testBit_set, h8]
  · simp only [hcl, ok_bind, pure_ok] at h
    have hp := Prod.mk.inj (Except.ok.inj h)
    cases Ret.timer.inj hp.1

/-- From a state in which slot `s` is claimed, a `claimTimer` that returns `s`
comes after an `unclaimTimer` on `s`. -/
theorem unclaim_before_claim (s : Nat) (hs : s < NUM_TIMERS) (cs : List Call) :
    ∀ (st st1 : TimerState) (rets : List Ret) (j : Nat),
      run st cs = .ok (rets, st1) → st.claimed.testBit s = true →
      cs[j]? = some .claimTimer → rets[j]? = some (.timer (.slot s)) →
      ∃ k, k < j ∧ cs[k]? = some (.unclaimTimer (.slot s)) := by
  induction cs with
  | nil =>
    intro st st1 rets j _ _ hc _
    simp at hc
  | cons c cs ih =>
    intro st st1 rets j hrun hbit hc hr
    obtain ⟨r, st2, rs, hstep, hrest, hrets⟩ := run_cons_ok st c cs rets st1 hrun
    subst hrets
    cases j with
    | zero =>
      simp only [List.getElem?_cons_zero, Option.some.injEq] at hc hr
      subst hc
      subst hr
      have := (step_claimTimer_slot st st2 s hstep).2.1
      rw [hbit] at this
      cases this
    | succ j =>
      simp only [List.getElem?_cons_succ] at hc hr
      by_cases hcu : c = .unclaimTimer (.slot s)
      · exact ⟨0, Nat.succ_pos j, by simp [hcu]⟩
      · have hbit2 := step_keeps_claimed_bit st st2 c r s hs hstep hcu hbit
        obtain ⟨k, hk, hck⟩ := ih st2 st1 rs j hrest hbit2 hc hr
        exact ⟨k + 1, by omega, by simp [hck]⟩

/-- Between two `claimTimer` calls that return the same slot `s` there is an
`unclaimTimer` on `s`. -/
theorem unclaim_between_claims (s : Nat) (cs : List Call) :
    ∀ (st st1 : TimerState) (rets : List Ret) (i j : Nat),
      run st cs = .ok (rets, st1) → i < j →
      cs[i]? = some .claimTimer → rets[i]? = some (.timer (.slot s)) →
      cs[j]? = some .claimTimer → rets[j]? = some (.timer (.slot s)) →
      ∃ k, i < k ∧ k < j ∧ cs[k]? = some (.unclaimTimer (.slot s)) := by
  induction cs with
  | nil =>
    intro st st1 rets i j _ _ hc _ _ _
    simp at hc
  | cons c cs ih =>
    intro st st1 rets i j hrun hij hci hri hcj hrj
    obtain ⟨r, st2, rs, hstep, hrest, hrets⟩ := run_cons_ok st c cs rets st1 hrun
    subst hrets
    cases j with
    | zero => omega
    | succ j =>
      simp only [List.getElem?_cons_succ] at hcj hrj
      cases i with
      | zero =>
        simp only [List.getElem?_cons_zero, Option.some.injEq] at hci hri
        subst hci
        subst hri
        obtain ⟨hs, _, hbit⟩ := step_claimTimer_slot st st2 s hstep
        obtain ⟨k, hk, hck⟩ := unclaim_before_claim s hs cs st2 st1 rs j hrest hbit hcj hrj
        exact ⟨k + 1, by omega, by omega, by simp [hck]⟩
      | succ i =>
        simp only [List.getElem?_cons_succ] at hci hri
        obtain ⟨k, hk1, hk2, hck⟩ := ih st2 st1 rs i j hrest (by omega) hci hri hcj hrj
        exact ⟨k + 1, by omega, by omega, by simp [hck]⟩

/-- C2: in a sequence of calls run from the start-up state, if `claimTimer`
returns a slot `s` at step `i` and returns the same `s` at a later step `j`,
then some call strictly between them is `unclaimTimer` or `cancelHardTimer` on
`s`. -/
theorem claimTimer_at_most_one_owner (cs : List Call) (rets : List Ret) (st1 : TimerState)
    (i j s : Nat) (hrun : run TimerState.init cs = .ok (rets, st1)) (hij : i < j)
    (hci : cs[i]? = some .claimTimer) (hri : rets[i]? = some (.timer (.slot s)))
    (hcj : cs[j]? = some .claimTimer) (hrj : rets[j]? = some (.timer (.slot s))) :
    ∃ k, i < k ∧ k < j ∧
      (cs[k]? = some (.unclaimTimer (.slot s)) ∨ cs[k]? = some (.cancelHardTimer (.slot s))) := by
  obtain ⟨k, hk1, hk2, hck⟩ :=
    unclaim_between_claims s cs TimerState.init st1 rets i j hrun hij hci hri hcj hrj
  exact ⟨k, hk1, hk2, Or.inl hck⟩

/-- C2 on the sequence claim, unclaim slot 0, claim: both claims return slot
0, and the call between them is the `unclaimTimer` on slot 0. -/
theorem claimTimer_at_most_one_owner_witness :
    ∃ k, 0 < k ∧ k < 2 ∧
      (([.claimTimer, .unclaimTimer (.slot 0), .claimTimer] : List Call)[k]? =
          some (.unclaimTimer (.slot 0)) ∨
        ([.claimTimer, .unclaimTimer (.slot 0), .claimTimer] : List Call)[k]? =
          some (.cancelHardTimer (.slot 0))) :=
  claimTimer_at_most_one_owner [.claimTimer, .unclaimTimer (.slot 0), .claimTimer]
    [.timer (.slot 0), .flag true, .timer (.slot 0)] { TimerState.init with claimed := 1 }
    0 2 0 (by decide) (by decide) (by decide) (by decide) (by decide) (by decide)

/-! ## Started and claimed -/

/-- One disciplined call keeps: every handle that is set belongs to a slot
whose bit is set. -/
theorem step_keeps_started_claimed (st st1 : TimerState) (c : Call) (r : Ret)
    (hinv : ∀ i (h : i < NUM_TIMERS), (st.timers ⟨i, h⟩).isSome = true →
      st.claimed.testBit i = true)
    (hd : disciplined st c) (h : step st c = .ok (r, st1)) :
    ∀ i (h : i < NUM_TIMERS), (st1.timers ⟨i, h⟩).isSome = true →
      st1.claimed.testBit i = true := by
  intro j hj hsome
  have hj4 : j < 4 := hj
  have hj8 : j < 8 := by omega
  cases c with
  | claimTimer =>
    simp only [step] at h
    rcases claimTimer_cases st with ⟨i, _, _, _, hcl⟩ | ⟨_, hcl⟩
    · simp only [hcl, ok_bind, pure_ok] at h
      have := (Prod.mk.inj (Except.ok.inj h)).2
      subst this
      have := hinv j hj hsome
      simp [testBit_set, hj8, this]
    · simp only [hcl, ok_bind, pure_ok] at h
      have := (Prod.mk.inj (Except.ok.inj h)).2
      subst this
      exact hinv j hj hsome
  | unclaimTimer t =>
    simp only [step] at h
    cases hu : unclaimTimer st t with
    | error e => simp only [hu, error_bind] at h; cases h
    | ok p =>
      simp only [hu, ok_bind, pure_ok] at h
      have hst := (Prod.mk.inj (Except.ok.inj h)).2
      rcases unclaimTimer_cases st t p.1 p.2 hu with ⟨_, h2⟩ | ⟨i, hi, hti, _, _, h2⟩
      · rw [← hst, h2] at hsome ⊢
        exact hinv j hj hsome
      · rw [← hst, h2] at hsome ⊢
        have hi4 : i < 4 := hi
        have hns : hardTimerStarted st (.slot i) = .ok false := by
          have := hd
          rw [hti] at this
          exact this
        rw [hardTimerStarted_slot st i hi] at hns
        have hnone : (st.timers ⟨i, hi⟩).isSome = false := Except.ok.inj hns
        have hne : ¬ i = j := by
          intro heq
          subst heq
          have h1 : (st.timers ⟨i, hj⟩).isSome = true := hsome
          rw [hnone] at h1
          cases h1
        have hbit := hinv j hj hsome
        show ((st.claimed &&& (2 ^ 32 - 1 - (1 <<< i))) % 256).testBit j = true
        rw [testBit_clear _ _ _ (by omega)]
        simp [hj8, hbit, hne]
  | setHardTimer t f fn p =>
    simp only [step] at h
    cases hu : setHardTimer st t f fn p with
    | error e => simp only [hu, error_bind] at h; cases h
    | ok q =>
      simp only [hu, ok_bind, pure_ok] at h
      have hst := (Prod.mk.inj (Except.ok.inj h)).2
      rcases setHardTimer_cases st t f fn p q hu with
        ⟨_, h2⟩ | ⟨t0, i, g, calls, hi, ht0, hres, _, _, _, h2⟩
      · rw [← hst, h2] at hsome ⊢
        exact hinv j hj hsome
      · rw [← hst, h2] at hsome ⊢
        subst ht0
        have hcl : hardTimerClaimed st t0 = .ok true := hd
        show st.claimed.testBit j = true
        by_cases hji : j = i
        · subst hji
          cases t0 with
          | HARD_TIMER_INVALID => simp [hardTimerClaimed] at hcl
          | slot i0 =>
            rw [resolveTimer_claimed st i0 hcl] at hres
            have : i0 = j := hard_timer_t.slot.inj (Except.ok.inj hres)
            subst this
            rw [hardTimerClaimed_slot st i0 hj] at hcl
            exact Except.ok.inj hcl
        · have hne : (⟨j, hj⟩ : Fin NUM_TIMERS) ≠ ⟨i, hi⟩ := by
            intro heq
            exact hji (Fin.mk.inj heq)
          have hsome2 : (st.timers ⟨j, hj⟩).isSome = true := by
            have := hsome
            simp only [Function.update_noteq hne] at this
            exact this
          exact hinv j hj hsome2
  | cancelHardTimer t =>
    simp only [step] at h
    cases hu : cancelHardTimer st t with
    | error e => simp only [hu, error_bind] at h; cases h
    | ok q =>
      simp only [hu, ok_bind, pure_ok] at h
      have hst := (Prod.mk.inj (Except.ok.inj h)).2
      rcases cancelHardTimer_cases st t q.1 q.2 hu with ⟨_, h2⟩ | ⟨i, calls, hi, _, _, h2⟩
      · rw [← hst, h2] at hsome ⊢
        exact hinv j hj hsome
      · rw [← hst, h2] at hsome ⊢
        show st.claimed.testBit j = true
        by_cases hji : j = i
        · subst hji
          simp at hsome
        · have hne : (⟨j, hj⟩ : Fin NUM_TIMERS) ≠ ⟨i, hi⟩ := by
            intro heq
            exact hji (Fin.mk.inj heq)
          have hsome2 : (st.timers ⟨j, hj⟩).isSome = true := by
            have := hsome
            simp only [Function.update_noteq hne] at this
            exact this
          exact hinv j hj hsome2

/-- A disciplined run keeps: every handle that is set belongs to a slot whose
bit is set. -/
theorem run_keeps_started_claimed (cs : List Call) :
    ∀ (st st1 : TimerState) (rets : List Ret),
      (∀ i (h : i < NUM_TIMERS), (st.timers ⟨i, h⟩).isSome = true →
        st.claimed.testBit i = true) →
      disciplinedRun st cs → run st cs = .ok (rets, st1) →
      ∀ i (h : i < NUM_TIMERS), (st1.timers ⟨i, h⟩).isSome = true →
        st1.claimed.testBit i = true := by
  induction cs with
  | nil =>
    intro st st1 rets hinv _ hrun
    have := (Prod.mk.inj (Except.ok.inj hrun)).2
    subst this
    exact hinv
  | cons c cs ih =>
    intro st st1 rets hinv hd hrun
    obtain ⟨r, st2, rs, hstep, hrest, _⟩ := run_cons_ok st c cs rets st1 hrun
    unfold disciplinedRun at hd
    rw [hstep] at hd
    exact ih st2 st1 rs (step_keeps_started_claimed st st2 c r hinv hd.1 hstep) hd.2 hrest

/-- C8, as the code has it: in every state reached from start-up by a sequence
of calls in which each `setHardTimer` is made on a slot claimed at that moment
and each `unclaimTimer` on a slot not started at that moment, every slot that
is started is also claimed. -/
theorem started_implies_claimed_of_disciplined (cs : List Call)
    (hd : disciplinedRun TimerState.init cs) :
    ∀ (rets : List Ret) (st1 : TimerState), run TimerState.init cs = .ok (rets, st1) →
      ∀ i, hardTimerStarted st1 (.slot i) = .ok true →
        hardTimerClaimed st1 (.slot i) = .ok true := by
  intro rets st1 hrun i hs
  have hi : i < NUM_TIMERS := lt_of_hardTimerStarted_true st1 i hs
  have hinit : ∀ i (h : i < NUM_TIMERS), (TimerState.init.timers ⟨i, h⟩).isSome = true →
      TimerState.init.claimed.testBit i = true := by
    intro i h hsome
    simp [TimerState.init] at hsome
  have hinv := run_keeps_started_claimed cs TimerState.init st1 rets hinit hd hrun i hi
  rw [hardTimerStarted_slot st1 i hi] at hs
  rw [hardTimerClaimed_slot st1 i hi, hinv (Except.ok.inj hs)]

/-- C8 as amended, on the disciplined sequence claim, start slot 0, cancel
slot 0, start slot 0 again: the sequence runs, and slot 0 ends started and
claimed. -/
theorem started_implies_claimed_of_disciplined_witness :
    (run TimerState.init
        [.claimTimer, .setHardTimer (some (.slot 0)) (some 1000) (some 1) 0,
         .cancelHardTimer (.slot 0), .setHardTimer (some (.slot 0)) (some 50) (some 1) 0]).map
      (fun r => (r.1, hardTimerStarted r.2 (.slot 0))) =
      .ok ([.timer (.slot 0), .flag true, .flag true, .flag true], .ok true) ∧
    ∀ (rets : List Ret) (st1 : TimerState),
      run TimerState.init
        [.claimTimer, .setHardTimer (some (.slot 0)) (some 1000) (some 1) 0,
         .cancelHardTimer (.slot 0), .setHardTimer (some (.slot 0)) (some 50) (some 1) 0] =
        .ok (rets, st1) →
      ∀ i, hardTimerStarted st1 (.slot i) = .ok true →
        hardTimerClaimed st1 (.slot i) = .ok true :=
  ⟨by decide,
   started_implies_claimed_of_disciplined
    [.claimTimer, .setHardTimer (some (.slot 0)) (some 1000) (some 1) 0,
     .cancelHardTimer (.slot 0), .setHardTimer (some (.slot 0)) (some 50) (some 1) 0]
    (by decide)⟩

/-- C8 as stated fails: from start-up, `setHardTimer` with the sentinel starts
slot 0 without claiming it; and after claim and start of slot 0, `unclaimTimer`
on slot 0 returns true and leaves it started and unclaimed. -/
theorem started_implies_claimed_counterexample :
    (run TimerState.init [.setHardTimer (some .HARD_TIMER_INVALID) (some 1000) (some 1) 0]).map
      (fun r => (r.1, hardTimerStarted r.2 (.slot 0), hardTimerClaimed r.2 (.slot 0))) =
      .ok ([.flag true], .ok true, .ok false) ∧
    (run TimerState.init
        [.claimTimer, .setHardTimer (some (.slot 0)) (some 1000) (some 1) 0,
         .unclaimTimer (.slot 0)]).map
      (fun r => (r.1, hardTimerStarted r.2 (.slot 0), hardTimerClaimed r.2 (.slot 0))) =
      .ok ([.timer (.slot 0), .flag true, .flag true], .ok true, .ok false) := by
  decide

/-! ## The resolver has no range check of its own -/

/-- The scalar and the ticks for a `target` that fits 16 bits. -/
theorem scalarTicks_small (target : Nat) (h : target ≤ SCALAR_MAX) :
    scalarTicks target = .ok (target, 1) := by
  have hmod : target % 2 ^ 16 = target := by
    apply Nat.mod_eq_of_lt
    have h16 : (2 : Nat) ^ 16 = 65536 := by norm_num
    have hS : SCALAR_MAX = 65535 := rfl
    omega
  rw [scalarTicks, if_pos h, hmod]
  rfl

/-- C11, as the code has it: the range check is made by `setHardTimer`, which
returns false for the frequency 0 and for a frequency above `FREQ_MAX` with
nothing changed; `getHardTimerStats` makes none: for a frequency above
`FREQ_MAX` and up to the clock, on an identifier in range, it computes the
scalar `APB_CLK_FREQ / f` with one tick, writes a frequency back, and returns
`HARD_TIMER_FAIL` only when the resolved slot is the sentinel. -/
theorem getHardTimerStats_no_range_check (st : TimerState) (f : Nat) (timer : hard_timer_t)
    (h1 : FREQ_MAX < f) (h2 : f ≤ APB_CLK_FREQ) (hin : inRange timer) :
    (∀ fn priority, setHardTimer st (some timer) (some f) (some fn) priority =
        .ok { ret := false, timer := some timer, freq := some f, st := st }) ∧
    (∀ fn priority, setHardTimer st (some timer) (some 0) (some fn) priority =
        .ok { ret := false, timer := some timer, freq := some 0, st := st }) ∧
    ∃ r, getHardTimerStats st f timer = .ok r ∧
      r.scalar = APB_CLK_FREQ / f ∧ r.timerTicks = 1 ∧
      r.freq = APB_CLK_FREQ / (APB_CLK_FREQ / f) ∧
      (r.status = .HARD_TIMER_FAIL ↔ r.timer = .HARD_TIMER_INVALID) ∧
      (r.timer ≠ .HARD_TIMER_INVALID →
        r.status = if APB_CLK_FREQ % f ≠ 0 then .HARD_TIMER_SLIGHTLY_OFF
                   else .HARD_TIMER_OK) := by
  have hF : FREQ_MAX = 5000000 := rfl
  have hR : APB_CLK_FREQ = 80000000 := rfl
  refine ⟨?_, ?_, ?_⟩
  · intro fn priority
    have hbad : f = 0 ∨ f > FREQ_MAX := Or.inr h1
    simp only [setHardTimer, if_pos hbad]
  · intro fn priority
    simp [setHardTimer]
  · obtain ⟨timer1, hr, _⟩ := resolveTimer_inRange st timer hin
    have hf0 : ¬ f = 0 := by omega
    have hq1 : 1 ≤ APB_CLK_FREQ / f := by
      rw [Nat.le_div_iff_mul_le (by omega)]
      omega
    have hq2 : APB_CLK_FREQ / f ≤ SCALAR_MAX := by
      have hlt : APB_CLK_FREQ / f < 16 := by
        rw [Nat.div_lt_iff_lt_mul (by omega)]
        omega
      have hS : SCALAR_MAX = 65535 := rfl
      omega
    have hne : ¬ APB_CLK_FREQ / f * 1 = 0 := by omega
    have hst := scalarTicks_small (APB_CLK_FREQ / f) hq2
    by_cases hinv : timer1 = .HARD_TIMER_INVALID
    · refine ⟨{ status := .HARD_TIMER_FAIL, freq := APB_CLK_FREQ / (APB_CLK_FREQ / f * 1),
                timer := timer1, scalar := APB_CLK_FREQ / f, timerTicks := 1 }, ?_, rfl, rfl,
              by simp, by simp [hinv], fun h => absurd hinv h⟩
      rw [getHardTimerStats, if_neg hf0]
      simp only [hst, ok_bind, if_neg hne, hr, pure_ok, if_pos hinv]
    · refine ⟨{ status := if APB_CLK_FREQ % f ≠ 0 then .HARD_TIMER_SLIGHTLY_OFF
                          else .HARD_TIMER_OK,
                freq := APB_CLK_FREQ / (APB_CLK_FREQ / f * 1),
                timer := timer1, scalar := APB_CLK_FREQ / f, timerTicks := 1 }, ?_, rfl, rfl,
              by simp, ?_, fun _ => rfl⟩
      · rw [getHardTimerStats, if_neg hf0]
        simp only [hst, ok_bind, if_neg hne, hr, pure_ok, if_neg hinv]
      · by_cases hdiv : APB_CLK_FREQ % f = 0 <;> simp [hinv, hdiv]

/-- C11 as amended, at start-up for 8,000,000 Hz and the sentinel as requested
slot. -/
theorem getHardTimerStats_no_range_check_witness :
    (∀ fn priority,
      setHardTimer TimerState.init (some .HARD_TIMER_INVALID) (some 8000000) (some fn) priority =
        .ok { ret := false, timer := some .HARD_TIMER_INVALID, freq := some 8000000,
              st := TimerState.init }) ∧
    (∀ fn priority,
      setHardTimer TimerState.init (some .HARD_TIMER_INVALID) (some 0) (some fn) priority =
        .ok { ret := false, timer := some .HARD_TIMER_INVALID, freq := some 0,
              st := TimerState.init }) ∧
    ∃ r, getHardTimerStats TimerState.init 8000000 .HARD_TIMER_INVALID = .ok r ∧
      r.scalar = APB_CLK_FREQ / 8000000 ∧ r.timerTicks = 1 ∧
      r.freq = APB_CLK_FREQ / (APB_CLK_FREQ / 8000000) ∧
      (r.status = .HARD_TIMER_FAIL ↔ r.timer = .HARD_TIMER_INVALID) ∧
      (r.timer ≠ .HARD_TIMER_INVALID →
        r.status = if APB_CLK_FREQ % 8000000 ≠ 0 then .HARD_TIMER_SLIGHTLY_OFF
                   else .HARD_TIMER_OK) :=
  getHardTimerStats_no_range_check TimerState.init 8000000 .HARD_TIMER_INVALID (by decide)
    (by decide) (by decide)

/-- C11 as stated fails: at start-up the resolver, asked for 8,000,000 Hz
(above `FREQ_MAX`), returns `HARD_TIMER_OK` with scalar 10 and one tick on
slot 0; asked for 5,000,001 Hz it returns `HARD_TIMER_SLIGHTLY_OFF` with
scalar 15; asked for 0 Hz it returns no status, its first operation being a
remainder by zero. -/
theorem getHardTimerStats_rejects_invalid_counterexample :
    getHardTimerStats TimerState.init 8000000 .HARD_TIMER_INVALID =
      .ok { status := .HARD_TIMER_OK, freq := 8000000, timer := .slot 0,
            scalar := 10, timerTicks := 1 } ∧
    getHardTimerStats TimerState.init 5000001 .HARD_TIMER_INVALID =
      .ok { status := .HARD_TIMER_SLIGHTLY_OFF, freq := 5333333, timer := .slot 0,
            scalar := 15, timerTicks := 1 } ∧
    getHardTimerStats TimerState.init 0 .HARD_TIMER_INVALID = .error .divByZero := by
  decide

/-! ## Scalar and ticks -/

/-- The exponent reached by the halving loop is the largest one whose power of
two divides the target and fits the scalar. -/
theorem largest_exponent (target t k : Nat) (ht : target = t * 2 ^ k)
    (hstop : t % 2 ≠ 0 ∨ SCALAR_MAX < 2 ^ k * 2) :
    ∀ k1, 2 ^ k1 ∣ target → 2 ^ k1 ≤ SCALAR_MAX → k1 ≤ k := by
  intro k1 hdvd hle
  by_contra hgt
  have hk : k + 1 ≤ k1 := by omega
  have hpow : 2 ^ (k + 1) ∣ 2 ^ k1 := pow_dvd_pow 2 hk
  rcases hstop with hodd | hbig
  · have h2 : 2 ^ (k + 1) ∣ t * 2 ^ k := by
      rw [← ht]
      exact Dvd.dvd.trans hpow hdvd
    have h3 : 2 ^ k * 2 ∣ 2 ^ k * t := by
      rw [Nat.mul_comm (2 ^ k) t, ← pow_succ]
      exact h2
    have h4 : 2 ∣ t := (Nat.mul_dvd_mul_iff_left (Nat.two_pow_pos _)).mp h3
    exact hodd (Nat.mod_eq_zero_of_dvd h4)
  · have h5 : 2 ^ (k + 1) ≤ 2 ^ k1 := Nat.le_of_dvd (Nat.two_pow_pos _) hpow
    rw [pow_succ] at h5
    omega

/-- C12: for an accepted frequency, with `target = APB_CLK_FREQ / f`: if the
target fits the scalar, the scalar is the target and there is one tick;
otherwise the scalar is `2 ^ k` and the ticks are `target / 2 ^ k`, for the
largest `k` such that `2 ^ k` divides the target and fits the scalar, so that
the ticks are odd or doubling the scalar would exceed `SCALAR_MAX`. In both
cases scalar times ticks is the target and the scalar is between 1 and
`SCALAR_MAX`. -/
theorem getHardTimerStats_scalar_ticks (st : TimerState) (f : Nat) (timer : hard_timer_t)
    (h1 : 1 ≤ f) (h2 : f ≤ FREQ_MAX) (hin : inRange timer) :
    ∃ r, getHardTimerStats st f timer = .ok r ∧
      r.scalar * r.timerTicks = APB_CLK_FREQ / f ∧ 1 ≤ r.scalar ∧ r.scalar ≤ SCALAR_MAX ∧
      (APB_CLK_FREQ / f ≤ SCALAR_MAX → r.scalar = APB_CLK_FREQ / f ∧ r.timerTicks = 1) ∧
      (SCALAR_MAX < APB_CLK_FREQ / f →
        ∃ k, r.scalar = 2 ^ k ∧ r.timerTicks = APB_CLK_FREQ / f / 2 ^ k ∧
          2 ^ k ∣ APB_CLK_FREQ / f ∧ 2 ^ k ≤ SCALAR_MAX ∧
          (∀ k1, 2 ^ k1 ∣ APB_CLK_FREQ / f → 2 ^ k1 ≤ SCALAR_MAX → k1 ≤ k) ∧
          (r.timerTicks % 2 = 1 ∨ SCALAR_MAX < 2 * r.scalar)) := by
  obtain ⟨timer1, hr, _⟩ := resolveTimer_inRange st timer hin
  obtain ⟨s, t, hst, _, hstats⟩ := getHardTimerStats_of_resolve st f timer timer1 h1 h2 hr
  have htar := target_ge f h1 h2
  obtain ⟨s1, t1, hst1, hmul, hs1, hs2, hsmall, hbig⟩ :=
    scalarTicks_spec (APB_CLK_FREQ / f) (by omega)
  rw [hst] at hst1
  have hs : s = s1 := (Prod.mk.inj (Except.ok.inj hst1)).1
  have ht : t = t1 := (Prod.mk.inj (Except.ok.inj hst1)).2
  subst hs
  subst ht
  refine ⟨_, hstats, hmul, hs1, hs2, hsmall, ?_⟩
  intro hgt
  obtain ⟨k, hk, htk, hstop⟩ := hbig hgt
  have hpos : 0 < 2 ^ k := Nat.two_pow_pos _
  refine ⟨k, hk, ?_, ?_, ?_, ?_, ?_⟩
  · show t = APB_CLK_FREQ / f / 2 ^ k
    rw [htk, Nat.mul_div_cancel _ hpos]
  · rw [htk]
    exact Dvd.intro_left t rfl
  · rw [← hk]; exact hs2
  · apply largest_exponent (APB_CLK_FREQ / f) t k htk
    rw [← hk]
    exact hstop
  · show t % 2 = 1 ∨ SCALAR_MAX < 2 * s
    rcases hstop with hodd | hbig2
    · left; omega
    · right; omega

/-- C12 at start-up for 1000 Hz, where the target 80000 exceeds the scalar. -/
theorem getHardTimerStats_scalar_ticks_witness :
    ∃ r, getHardTimerStats TimerState.init 1000 .HARD_TIMER_INVALID = .ok r ∧
      r.scalar * r.timerTicks = APB_CLK_FREQ / 1000 ∧ 1 ≤ r.scalar ∧ r.scalar ≤ SCALAR_MAX ∧
      (APB_CLK_FREQ / 1000 ≤ SCALAR_MAX → r.scalar = APB_CLK_FREQ / 1000 ∧ r.timerTicks = 1) ∧
      (SCALAR_MAX < APB_CLK_FREQ / 1000 →
        ∃ k, r.scalar = 2 ^ k ∧ r.timerTicks = APB_CLK_FREQ / 1000 / 2 ^ k ∧
          2 ^ k ∣ APB_CLK_FREQ / 1000 ∧ 2 ^ k ≤ SCALAR_MAX ∧
          (∀ k1, 2 ^ k1 ∣ APB_CLK_FREQ / 1000 → 2 ^ k1 ≤ SCALAR_MAX → k1 ≤ k) ∧
          (r.timerTicks % 2 = 1 ∨ SCALAR_MAX < 2 * r.scalar)) :=
  getHardTimerStats_scalar_ticks TimerState.init 1000 .HARD_TIMER_INVALID (by decide) (by decide)
    (by decide)

/-! ## The frequency written back -/

/-- The frequency written back is not below the requested one. -/
theorem le_written_back (f : Nat) (h1 : 1 ≤ f) (h2 : f ≤ FREQ_MAX) :
    f ≤ APB_CLK_FREQ / (APB_CLK_FREQ / f) := by
  have htar := target_ge f h1 h2
  rw [Nat.le_div_iff_mul_le (by omega), Nat.mul_comm]
  exact Nat.div_mul_le_self APB_CLK_FREQ f

/-- The frequency written back is not above `FREQ_MAX`. -/
theorem written_back_le (f : Nat) (h1 : 1 ≤ f) (h2 : f ≤ FREQ_MAX) :
    APB_CLK_FREQ / (APB_CLK_FREQ / f) ≤ FREQ_MAX := by
  have htar := target_ge f h1 h2
  have h16 : APB_CLK_FREQ / (APB_CLK_FREQ / f) ≤ APB_CLK_FREQ / 16 :=
    Nat.div_le_div_left htar (by norm_num)
  have : APB_CLK_FREQ / 16 = FREQ_MAX := by decide
  omega

/-- The frequency written back has the same quotient as the requested one. -/
theorem target_written_back (f : Nat) (h1 : 1 ≤ f) (h2 : f ≤ FREQ_MAX) :
    APB_CLK_FREQ / (APB_CLK_FREQ / (APB_CLK_FREQ / f)) = APB_CLK_FREQ / f := by
  have htar := target_ge f h1 h2
  have hle := le_written_back f h1 h2
  apply Nat.le_antisymm
  · exact Nat.div_le_div_left hle (by omega)
  · rw [Nat.le_div_iff_mul_le (by omega)]
    exact Nat.mul_div_le APB_CLK_FREQ (APB_CLK_FREQ / f)

/-- C13, as the code has it: for an accepted frequency `f`, whenever the
resolver returns `HARD_TIMER_SLIGHTLY_OFF`, `f` does not divide the clock and
the frequency written back, the quotient of the clock by scalar times ticks,
is at least `f`; it can be `f` itself. -/
theorem getHardTimerStats_slightly_off (st : TimerState) (f : Nat) (timer : hard_timer_t)
    (h1 : 1 ≤ f) (h2 : f ≤ FREQ_MAX) (hin : inRange timer) :
    ∃ r, getHardTimerStats st f timer = .ok r ∧
      (r.status = .HARD_TIMER_SLIGHTLY_OFF →
        APB_CLK_FREQ % f ≠ 0 ∧ r.freq = APB_CLK_FREQ / (r.scalar * r.timerTicks) ∧
        f ≤ r.freq) := by
  obtain ⟨timer1, hr, _⟩ := resolveTimer_inRange st timer hin
  obtain ⟨s, t, _, hmul, hstats⟩ := getHardTimerStats_of_resolve st f timer timer1 h1 h2 hr
  refine ⟨_, hstats, ?_⟩
  intro hoff
  refine ⟨?_, ?_, le_written_back f h1 h2⟩
  · intro hdiv
    by_cases hinv : timer1 = .HARD_TIMER_INVALID
    · simp [hinv] at hoff
    · simp [hinv, hdiv] at hoff
  · show APB_CLK_FREQ / (APB_CLK_FREQ / f) = APB_CLK_FREQ / (s * t)
    rw [hmul]

/-- C13 as amended, at start-up for 3 Hz and the sentinel as requested slot. -/
theorem getHardTimerStats_slightly_off_witness :
    ∃ r, getHardTimerStats TimerState.init 3 .HARD_TIMER_INVALID = .ok r ∧
      (r.status = .HARD_TIMER_SLIGHTLY_OFF →
        APB_CLK_FREQ % 3 ≠ 0 ∧ r.freq = APB_CLK_FREQ / (r.scalar * r.timerTicks) ∧
        3 ≤ r.freq) :=
  getHardTimerStats_slightly_off TimerState.init 3 .HARD_TIMER_INVALID (by decide) (by decide)
    (by decide)

/-- C13 as stated fails: at start-up, asked for 3 Hz, the resolver returns
`HARD_TIMER_SLIGHTLY_OFF` (the clock leaves the remainder 2) with scalar 2 and
13333333 ticks, and the frequency it writes back is 3, the requested one. -/
theorem getHardTimerStats_slightly_off_differs_counterexample :
    getHardTimerStats TimerState.init 3 .HARD_TIMER_INVALID =
      .ok { status := .HARD_TIMER_SLIGHTLY_OFF, freq := 3, timer := .slot 0,
            scalar := 2, timerTicks := 13333333 } ∧
    APB_CLK_FREQ % 3 = 2 ∧ APB_CLK_FREQ / (2 * 13333333) = 3 := by
  decide

/-! ## Which slot the resolver settles on -/

/-- On an identifier in range the resolution either replaces it by the result
of the scan (the sentinel, or a slot started and not claimed) or keeps it (a
slot that is claimed or not started). -/
theorem resolveTimer_cases (st : TimerState) (timer : hard_timer_t) (hin : inRange timer) :
    ((timer = .HARD_TIMER_INVALID ∨
        (hardTimerStarted st timer = .ok true ∧ hardTimerClaimed st timer = .ok false)) ∧
      resolveTimer st timer = getNextTimer st) ∨
    (¬ (timer = .HARD_TIMER_INVALID ∨
        (hardTimerStarted st timer = .ok true ∧ hardTimerClaimed st timer = .ok false)) ∧
      timer ≠ .HARD_TIMER_INVALID ∧ resolveTimer st timer = .ok timer) := by
  cases timer with
  | HARD_TIMER_INVALID =>
    left
    exact ⟨Or.inl rfl, resolveTimer_sentinel st⟩
  | slot i =>
    have hi : i < NUM_TIMERS := hin
    have hcl := hardTimerClaimed_slot st i hi
    have hsl := hardTimerStarted_slot st i hi
    cases hc : st.claimed.testBit i
    · cases hs : (st.timers ⟨i, hi⟩).isSome
      · right
        rw [hs] at hsl
        refine ⟨?_, by simp, resolveTimer_not_started st i hsl⟩
        rintro (h | ⟨h, _⟩)
        · cases h
        · rw [hsl] at h; cases h
      · left
        rw [hs] at hsl
        rw [hc] at hcl
        exact ⟨Or.inr ⟨hsl, hcl⟩, resolveTimer_unowned st i hcl hsl⟩
    · right
      rw [hc] at hcl
      refine ⟨?_, by simp, resolveTimer_claimed st i hcl⟩
      rintro (h | ⟨_, h⟩)
      · cases h
      · rw [hcl] at h; cases h

/-- C14: for an accepted frequency and an identifier in range: if the caller's
slot is the sentinel, or is started and not claimed, `*timer` is replaced by
the lowest-index slot that is neither started nor claimed, and when there is
none it is the sentinel and the call returns `HARD_TIMER_FAIL`; in every other
case `*timer` is kept and the call does not fail. A slot put in place of the
caller's is therefore neither started nor claimed. -/
theorem getHardTimerStats_slot_resolution (st : TimerState) (f : Nat) (timer : hard_timer_t)
    (h1 : 1 ≤ f) (h2 : f ≤ FREQ_MAX) (hin : inRange timer) :
    ∃ r, getHardTimerStats st f timer = .ok r ∧
      ((timer = .HARD_TIMER_INVALID ∨
          (hardTimerStarted st timer = .ok true ∧ hardTimerClaimed st timer = .ok false)) →
        (∃ k, r.timer = .slot k ∧ k < NUM_TIMERS ∧ isFree st k ∧
            (∀ j, j < k → ¬ isFree st j) ∧ r.status ≠ .HARD_TIMER_FAIL) ∨
        (r.timer = .HARD_TIMER_INVALID ∧ r.status = .HARD_TIMER_FAIL ∧
            ∀ j, j < NUM_TIMERS → ¬ isFree st j)) ∧
      (¬ (timer = .HARD_TIMER_INVALID ∨
          (hardTimerStarted st timer = .ok true ∧ hardTimerClaimed st timer = .ok false)) →
        r.timer = timer ∧ r.status ≠ .HARD_TIMER_FAIL) ∧
      (r.timer ≠ timer → ∀ k, r.timer = .slot k →
        hardTimerStarted st (.slot k) = .ok false ∧
        hardTimerClaimed st (.slot k) = .ok false) := by
  have hstatus : ∀ timer1 : hard_timer_t, timer1 ≠ .HARD_TIMER_INVALID →
      (if timer1 = .HARD_TIMER_INVALID then HardTimerStatusReturn.HARD_TIMER_FAIL
       else if APB_CLK_FREQ % f ≠ 0 then .HARD_TIMER_SLIGHTLY_OFF else .HARD_TIMER_OK) ≠
        .HARD_TIMER_FAIL := by
    intro timer1 hne
    rw [if_neg hne]
    split <;> simp
  rcases resolveTimer_cases st timer hin with ⟨hcond, hres⟩ | ⟨hcond, hne, hres⟩
  · rcases getNextTimer_spec st with ⟨k, hk, hk4, hkf, hkl⟩ | ⟨hk, hnone⟩
    · rw [hk] at hres
      obtain ⟨s, t, _, _, hstats⟩ := getHardTimerStats_of_resolve st f timer (.slot k) h1 h2 hres
      refine ⟨_, hstats, ?_, fun hn => absurd hcond hn, ?_⟩
      · intro _
        left
        exact ⟨k, rfl, hk4, hkf, hkl, hstatus (.slot k) (by simp)⟩
      · intro _ k1 hk1
        have : k = k1 := hard_timer_t.slot.inj hk1
        subst this
        exact hkf
    · rw [hk] at hres
      obtain ⟨s, t, _, _, hstats⟩ :=
        getHardTimerStats_of_resolve st f timer .HARD_TIMER_INVALID h1 h2 hres
      refine ⟨_, hstats, ?_, fun hn => absurd hcond hn, ?_⟩
      · intro _
        right
        exact ⟨rfl, by simp, hnone⟩
      · intro _ k1 hk1
        cases hk1
  · obtain ⟨s, t, _, _, hstats⟩ := getHardTimerStats_of_resolve st f timer timer h1 h2 hres
    refine ⟨_, hstats, fun hc => absurd hc hcond, fun _ => ⟨rfl, hstatus timer hne⟩, ?_⟩
    intro hdiff
    exact absurd rfl hdiff

/-- C14 at the state where slot 0 is started and not claimed, asked for slot 0
at 1000 Hz. -/
theorem getHardTimerStats_slot_resolution_witness :
    ∃ r, getHardTimerStats { runningSlot0 with claimed := 0 } 1000 (.slot 0) = .ok r ∧
      (((.slot 0 : hard_timer_t) = .HARD_TIMER_INVALID ∨
          (hardTimerStarted { runningSlot0 with claimed := 0 } (.slot 0) = .ok true ∧
            hardTimerClaimed { runningSlot0 with claimed := 0 } (.slot 0) = .ok false)) →
        (∃ k, r.timer = .slot k ∧ k < NUM_TIMERS ∧ isFree { runningSlot0 with claimed := 0 } k ∧
            (∀ j, j < k → ¬ isFree { runningSlot0 with claimed := 0 } j) ∧
            r.status ≠ .HARD_TIMER_FAIL) ∨
        (r.timer = .HARD_TIMER_INVALID ∧ r.status = .HARD_TIMER_FAIL ∧
            ∀ j, j < NUM_TIMERS → ¬ isFree { runningSlot0 with claimed := 0 } j)) ∧
      (¬ ((.slot 0 : hard_timer_t) = .HARD_TIMER_INVALID ∨
          (hardTimerStarted { runningSlot0 with claimed := 0 } (.slot 0) = .ok true ∧
            hardTimerClaimed { runningSlot0 with claimed := 0 } (.slot 0) = .ok false)) →
        r.timer = .slot 0 ∧ r.status ≠ .HARD_TIMER_FAIL) ∧
      (r.timer ≠ .slot 0 → ∀ k, r.timer = .slot k →
        hardTimerStarted { runningSlot0 with claimed := 0 } (.slot k) = .ok false ∧
        hardTimerClaimed { runningSlot0 with claimed := 0 } (.slot k) = .ok false) :=
  getHardTimerStats_slot_resolution { runningSlot0 with claimed := 0 } 1000 (.slot 0)
    (by decide) (by decide) (by decide)

/-! ## Priority flag -/

/-- C15: for an 8-bit priority `p`, `setPriority p` is `1 << (p / 85)`, 85
being `UINT8_MAX / 3`; it is one of 1, 2, 4, 8, it does not exceed `1 << 3`,
and it is monotone in `p`. -/
theorem setPriority_levels (p : Nat) (hp : p ≤ 255) :
    UINT8_MAX / 3 = 85 ∧ setPriority p = 1 <<< (p / 85) ∧
      (setPriority p = 1 ∨ setPriority p = 2 ∨ setPriority p = 4 ∨ setPriority p = 8) ∧
      setPriority p ≤ 1 <<< 3 ∧
      ∀ q, q ≤ 255 → p ≤ q → setPriority p ≤ setPriority q := by
  have h85 : UINT8_MAX / 3 = 85 := by decide
  have hdef : ∀ x, setPriority x = 2 ^ (x / 85) := by
    intro x
    rw [setPriority, h85, Nat.one_shiftLeft]
  have hq : p / 85 ≤ 3 := by omega
  refine ⟨h85, by rw [hdef, Nat.one_shiftLeft], ?_, ?_, ?_⟩
  · rw [hdef]
    have hcases : p / 85 = 0 ∨ p / 85 = 1 ∨ p / 85 = 2 ∨ p / 85 = 3 := by omega
    rcases hcases with h | h | h | h <;> rw [h] <;> simp
  · rw [hdef, Nat.one_shiftLeft]
    exact Nat.pow_le_pow_right (by norm_num) hq
  · intro q _ hpq
    rw [hdef, hdef]
    exact Nat.pow_le_pow_right (by norm_num) (Nat.div_le_div_right hpq)

/-- C15 at the priority 200. -/
theorem setPriority_levels_witness :
    UINT8_MAX / 3 = 85 ∧ setPriority 200 = 1 <<< (200 / 85) ∧
      (setPriority 200 = 1 ∨ setPriority 200 = 2 ∨ setPriority 200 = 4 ∨ setPriority 200 = 8) ∧
      setPriority 200 ≤ 1 <<< 3 ∧
      ∀ q, q ≤ 255 → 200 ≤ q → setPriority 200 ≤ setPriority q :=
  setPriority_levels 200 (by decide)

/-! ## The queries outside the valid indices -/

/-- C16, as the code has it: on the sentinel both queries return false, no
table being read; on a valid index both answer, their reads being in range. -/
theorem queries_on_sentinel (st : TimerState) :
    getTimer .HARD_TIMER_INVALID = none ∧
    hardTimerClaimed st .HARD_TIMER_INVALID = .ok false ∧
    hardTimerStarted st .HARD_TIMER_INVALID = .ok false ∧
    ∀ i, i < NUM_TIMERS →
      hardTimerClaimed st (.slot i) = .ok (st.claimed.testBit i) ∧
      ∃ b, hardTimerStarted st (.slot i) = .ok b :=
  ⟨rfl, rfl, rfl, fun i hi =>
    ⟨hardTimerClaimed_slot st i hi, _, hardTimerStarted_slot st i hi⟩⟩

/-- C16 as stated fails: on the identifier 7, which is neither a valid index
nor the sentinel, both queries read their table out of range, at start-up as
in any state. -/
theorem queries_out_of_range_counterexample :
    hardTimerClaimed TimerState.init (.slot 7) = .error .outOfBounds ∧
    hardTimerStarted TimerState.init (.slot 7) = .error .outOfBounds ∧
    timerGroups[7]? = none := by
  decide

/-- C16 as amended, at the state `runningSlot0`: the sentinel and the valid
index 3. -/
theorem queries_on_sentinel_witness :
    hardTimerClaimed runningSlot0 .HARD_TIMER_INVALID = .ok false ∧
    hardTimerStarted runningSlot0 .HARD_TIMER_INVALID = .ok false ∧
    hardTimerClaimed runningSlot0 (.slot 3) = .ok (runningSlot0.claimed.testBit 3) :=
  ⟨(queries_on_sentinel runningSlot0).2.1, (queries_on_sentinel runningSlot0).2.2.1,
   ((queries_on_sentinel runningSlot0).2.2.2 3 (by decide)).1⟩

/-! ## No wrap-around, no division by zero -/

/-- The 16-bit loop and the loop on unbounded integers agree: the doubling
never wraps. -/
theorem scaleLoop_eq_exact (fuel : Nat) :
    ∀ scalar ticks, scaleLoop fuel scalar ticks = scaleLoopExact fuel scalar ticks := by
  induction fuel with
  | zero =>
    intro scalar ticks
    rw [scaleLoop, scaleLoopExact]
  | succ n ih =>
    intro scalar ticks
    rw [scaleLoop, scaleLoopExact]
    by_cases hc : ticks % 2 = 0 ∧ scalar * 2 ≤ SCALAR_MAX
    · have hmod : scalar * 2 % 2 ^ 16 = scalar * 2 := by
        apply Nat.mod_eq_of_lt
        have := hc.2
        have h16 : (2 : Nat) ^ 16 = 65536 := by norm_num
        have hS : SCALAR_MAX = 65535 := rfl
        omega
      rw [if_pos hc, if_pos hc]
      simp only [hmod]
      exact ih (scalar * 2) (ticks / 2)
    · rw [if_neg hc, if_neg hc]

/-- The scalar and the ticks are those computed on unbounded integers: the
conversion of the target to 16 bits does not truncate. -/
theorem scalarTicks_eq_exact (target : Nat) :
    scalarTicks target = scalarTicksExact target := by
  by_cases hle : target ≤ SCALAR_MAX
  · rw [scalarTicks_small target hle, scalarTicksExact, if_pos hle]
    rfl
  · rw [scalarTicks, scalarTicksExact, if_neg hle, if_neg hle]
    exact scaleLoop_eq_exact 16 1 target

/-- C17: for an accepted frequency the resolver answers, so its loop ends and
it does not divide by zero: the target is between 16 and 80,000,000, the
scalar and the ticks are those computed on unbounded integers (no truncation,
no wrap-around), the scalar is at most 65535, and scalar times ticks is not
zero where the clock is divided by it. -/
theorem getHardTimerStats_no_fault (st : TimerState) (f : Nat) (timer : hard_timer_t)
    (h1 : 1 ≤ f) (h2 : f ≤ FREQ_MAX) (hin : inRange timer) :
    16 ≤ APB_CLK_FREQ / f ∧ APB_CLK_FREQ / f ≤ 80000000 ∧
    ∃ r, getHardTimerStats st f timer = .ok r ∧
      scalarTicks (APB_CLK_FREQ / f) = .ok (r.scalar, r.timerTicks) ∧
      scalarTicksExact (APB_CLK_FREQ / f) = .ok (r.scalar, r.timerTicks) ∧
      r.scalar ≤ 65535 ∧ r.scalar * r.timerTicks ≠ 0 ∧
      r.freq = APB_CLK_FREQ / (r.scalar * r.timerTicks) := by
  have htar := target_ge f h1 h2
  obtain ⟨timer1, hr, _⟩ := resolveTimer_inRange st timer hin
  obtain ⟨s, t, hst, hmul, hstats⟩ := getHardTimerStats_of_resolve st f timer timer1 h1 h2 hr
  obtain ⟨s1, t1, hst1, _, _, hs2, _, _⟩ := scalarTicks_spec (APB_CLK_FREQ / f) (by omega)
  have hs : s1 = s := by
    rw [hst] at hst1
    exact ((Prod.mk.inj (Except.ok.inj hst1)).1).symm
  rw [hs] at hs2
  refine ⟨htar, Nat.div_le_self _ _, _, hstats, hst, ?_, hs2, ?_, ?_⟩
  · rw [← scalarTicks_eq_exact]
    exact hst
  · show s * t ≠ 0
    omega
  · show APB_CLK_FREQ / (APB_CLK_FREQ / f) = APB_CLK_FREQ / (s * t)
    rw [hmul]

/-- C17 at start-up for 1 Hz, the lowest accepted frequency. -/
theorem getHardTimerStats_no_fault_witness :
    16 ≤ APB_CLK_FREQ / 1 ∧ APB_CLK_FREQ / 1 ≤ 80000000 ∧
    ∃ r, getHardTimerStats TimerState.init 1 .HARD_TIMER_INVALID = .ok r ∧
      scalarTicks (APB_CLK_FREQ / 1) = .ok (r.scalar, r.timerTicks) ∧
      scalarTicksExact (APB_CLK_FREQ / 1) = .ok (r.scalar, r.timerTicks) ∧
      r.scalar ≤ 65535 ∧ r.scalar * r.timerTicks ≠ 0 ∧
      r.freq = APB_CLK_FREQ / (r.scalar * r.timerTicks) :=
  getHardTimerStats_no_fault TimerState.init 1 .HARD_TIMER_INVALID (by decide) (by decide)
    (by decide)

/-! ## Resolving the frequency written back -/

/-- C18: for an accepted frequency `f`, the frequency `f1` written back is
between `f` and `FREQ_MAX`, and resolving `f1` yields the same scalar, the same
ticks and `f1` again. -/
theorem getHardTimerStats_fixed_point (st : TimerState) (f : Nat) (timer : hard_timer_t)
    (h1 : 1 ≤ f) (h2 : f ≤ FREQ_MAX) (hin : inRange timer) :
    ∃ r, getHardTimerStats st f timer = .ok r ∧ f ≤ r.freq ∧ r.freq ≤ FREQ_MAX ∧
      r.freq = APB_CLK_FREQ / (APB_CLK_FREQ / f) ∧
      APB_CLK_FREQ / (APB_CLK_FREQ / (APB_CLK_FREQ / (APB_CLK_FREQ / f))) =
        APB_CLK_FREQ / (APB_CLK_FREQ / f) ∧
      ∀ timer2, inRange timer2 →
        ∃ r2, getHardTimerStats st r.freq timer2 = .ok r2 ∧ r2.scalar = r.scalar ∧
          r2.timerTicks = r.timerTicks ∧ r2.freq = r.freq := by
  obtain ⟨timer1, hr, _⟩ := resolveTimer_inRange st timer hin
  obtain ⟨s, t, hst, _, hstats⟩ := getHardTimerStats_of_resolve st f timer timer1 h1 h2 hr
  have hle := le_written_back f h1 h2
  have hge := written_back_le f h1 h2
  have hfix := target_written_back f h1 h2
  refine ⟨_, hstats, hle, hge, rfl, by rw [hfix], ?_⟩
  intro timer2 hin2
  obtain ⟨timer3, hr2, _⟩ := resolveTimer_inRange st timer2 hin2
  obtain ⟨s2, t2, hst2, _, hstats2⟩ :=
    getHardTimerStats_of_resolve st (APB_CLK_FREQ / (APB_CLK_FREQ / f)) timer2 timer3
      (by omega) hge hr2
  rw [hfix, hst] at hst2
  have hs : s = s2 := (Prod.mk.inj (Except.ok.inj hst2)).1
  have ht : t = t2 := (Prod.mk.inj (Except.ok.inj hst2)).2
  refine ⟨_, hstats2, hs.symm, ht.symm, ?_⟩
  show APB_CLK_FREQ / (APB_CLK_FREQ / (APB_CLK_FREQ / (APB_CLK_FREQ / f))) =
    APB_CLK_FREQ / (APB_CLK_FREQ / f)
  rw [hfix]

/-- C18 at start-up for 290,000 Hz, written back as 290909. -/
theorem getHardTimerStats_fixed_point_witness :
    ∃ r, getHardTimerStats TimerState.init TEST_FAST_FREQ .HARD_TIMER_INVALID = .ok r ∧
      TEST_FAST_FREQ ≤ r.freq ∧ r.freq ≤ FREQ_MAX ∧
      r.freq = APB_CLK_FREQ / (APB_CLK_FREQ / TEST_FAST_FREQ) ∧
      APB_CLK_FREQ / (APB_CLK_FREQ / (APB_CLK_FREQ / (APB_CLK_FREQ / TEST_FAST_FREQ))) =
        APB_CLK_FREQ / (APB_CLK_FREQ / TEST_FAST_FREQ) ∧
      ∀ timer2, inRange timer2 →
        ∃ r2, getHardTimerStats TimerState.init r.freq timer2 = .ok r2 ∧
          r2.scalar = r.scalar ∧ r2.timerTicks = r.timerTicks ∧ r2.freq = r.freq :=
  getHardTimerStats_fixed_point TimerState.init TEST_FAST_FREQ .HARD_TIMER_INVALID (by decide)
    (by decide) (by decide)

end BoardEsp32Timer
